import Mathlib

/-!
# Voxelman: the voxel buffer (`world/voxel_buffer.cpp`)

A shallow embedding of `VoxelBuffer` and the properties its specification states.

Conventions of the embedding:

* C++ `int` coordinates, sizes and margins are `Int`; arithmetic on them is exact
  (no wrap-around is modelled, sizes are far below the 32-bit range).
* A `uint8_t` is an `Int` in `0..255`; storing an `int` into a byte is `to_uint8`
  (reduction modulo 256).
* A channel array is `Option (List Int)`: `none` is the `NULL` pointer, `some d` an
  allocated block of `d.length` bytes.
* Freshly allocated memory has arbitrary contents, given by a function
  `junk : Nat → Int` (the byte found at each offset of the new block).
* Every call yields an `Outcome`: `ok` when the call runs to its end, `failed` when an
  `ERR_FAIL_*` check reports an error and returns early, `crash` when the call reads
  or writes outside an allocated block (undefined behaviour in C++).
-/

namespace Voxelman

/-- Outcome of a call: normal return, early return through an `ERR_FAIL_*` check, or an
access outside an allocated block. `ok` and `failed` carry the returned value (for a
`void` method, the state of the buffer when the call returns). -/
inductive Outcome (α : Type) where
  | ok (a : α)
  | failed (a : α)
  | crash
deriving DecidableEq, Repr

/-- Sequencing inside a method body: the caller goes on with whatever the callee left
(an `ERR_FAIL_*` in the callee only returns from the callee); a crash ends everything. -/
def Outcome.next {α β : Type} (o : Outcome α) (k : α → Outcome β) : Outcome β :=
  match o with
  | Outcome.ok a => k a
  | Outcome.failed a => k a
  | Outcome.crash => Outcome.crash

/-- Lifting of a memory operation: `none` (access out of the block) is a crash. -/
def Outcome.ofMem {α β : Type} (m : Option α) (k : α → Outcome β) : Outcome β :=
  match m with
  | some a => k a
  | none => Outcome.crash

/-- Integer vector `Vector3i`. -/
structure Vector3i where
  x : Int
  y : Int
  z : Int
deriving DecidableEq, Repr

/-- One channel: `data` is `NULL` or an allocated byte array, `defval` the default byte. -/
structure Channel where
  data : Option (List Int)
  defval : Int
deriving DecidableEq, Repr

/-- Number of channels of a buffer (`VoxelBuffer::MAX_CHANNELS`, the ten entries of
`CHANNEL_ID_HINT_STRING`). -/
def MAX_CHANNELS : Nat := 10

/-- State of a `VoxelBuffer`: `_channels`, `_size`, `_margin_start`, `_margin_end`. -/
structure VoxelBuffer where
  channels : List Channel
  size : Vector3i
  margin_start : Int
  margin_end : Int
deriving DecidableEq, Repr

/-- Conversion of an `int` to `uint8_t`. -/
def to_uint8 (v : Int) : Int := v % 256

/-- Read of `_channels[i]`. -/
def chan (b : VoxelBuffer) (i : Nat) : Channel :=
  b.channels.getD i { data := none, defval := 0 }

/-- Write of `_channels[i]`. -/
def set_chan (b : VoxelBuffer) (i : Nat) (ch : Channel) : VoxelBuffer :=
  { b with channels := b.channels.set i ch }

/-- Block returned by `memalloc(n)`: `n` bytes of arbitrary content. -/
def memalloc (junk : Nat → Int) (n : Nat) : List Int :=
  (List.range n).map (fun k => to_uint8 (junk k))

/-- The call `memset(&data[off], v, n)`: `none` when the range leaves the block. -/
def memset (data : List Int) (off : Nat) (v : Int) (n : Nat) : Option (List Int) :=
  if off + n ≤ data.length then
    some (data.take off ++ List.replicate n (to_uint8 v) ++ data.drop (off + n))
  else none

/-- The call `memcpy(&dst[doff], &src[soff], n)`: `none` when either range leaves its
block. -/
def memcpy (dst : List Int) (doff : Nat) (src : List Int) (soff : Nat) (n : Nat) :
    Option (List Int) :=
  if doff + n ≤ dst.length ∧ soff + n ≤ src.length then
    some (dst.take doff ++ (src.drop soff).take n ++ dst.drop (doff + n))
  else none

/-- The assignment `data[i] = v` of an `int` to a byte of the block. -/
def store (data : List Int) (i : Nat) (v : Int) : Option (List Int) :=
  if i < data.length then some (data.set i (to_uint8 v)) else none

/-- Modelled from the spec: `validate_pos` is declared in `voxel_buffer.h`, which is not
part of the sources; a position is valid when it lies in `[0, size)` on every axis. -/
def validate_pos (b : VoxelBuffer) (x y z : Int) : Bool :=
  decide (0 ≤ x ∧ x < b.size.x ∧ 0 ≤ y ∧ y < b.size.y ∧ 0 ≤ z ∧ z < b.size.z)

/-- Modelled from the spec: `index` is declared in `voxel_buffer.h`, which is not part of
the sources; `index(x,y,z) = y + size.y*(x + size.x*z)`, an `unsigned int`. -/
def index (b : VoxelBuffer) (x y z : Int) : Nat :=
  (y + b.size.y * (x + b.size.x * z)).toNat

/-- Modelled from the spec: `get_volume` is declared in `voxel_buffer.h`, which is not
part of the sources; the volume is `size.x*size.y*size.z`, an `unsigned int`. -/
def get_volume (b : VoxelBuffer) : Nat :=
  (b.size.x * b.size.y * b.size.z).toNat

/-- The method `create_channel_noinit(i, size)`: a new block of `size.x*size.y*size.z`
bytes, not initialised. -/
def create_channel_noinit (junk : Nat → Int) (b : VoxelBuffer) (i : Nat) (size : Vector3i) :
    VoxelBuffer :=
  set_chan b i { chan b i with data := some (memalloc junk (size.x * size.y * size.z).toNat) }

/-- The method `create_channel(i, size, defval)`: allocates for `size`, then sets
`get_volume()` bytes (the volume of the current `_size`) to `defval`. -/
def create_channel (junk : Nat → Int) (b : VoxelBuffer) (i : Nat) (size : Vector3i)
    (defval : Int) : Outcome VoxelBuffer :=
  let b1 := create_channel_noinit junk b i size
  Outcome.ofMem ((chan b1 i).data.bind (fun d => memset d 0 defval (get_volume b1)))
    (fun d => Outcome.ok (set_chan b1 i { chan b1 i with data := some d }))

/-- The method `delete_channel(i)`. -/
def delete_channel (b : VoxelBuffer) (i : Nat) : Outcome VoxelBuffer :=
  match (chan b i).data with
  | none => Outcome.failed b
  | some _ => Outcome.ok (set_chan b i { chan b i with data := none })

/-- The loop of `create` over the channels `i, i+1, ..., i+n-1`. -/
def create_loop (junk : Nat → Int) (new_size : Vector3i) :
    Nat → Nat → VoxelBuffer → Outcome VoxelBuffer
  | _, 0, b => Outcome.ok b
  | i, n + 1, b =>
    (match (chan b i).data with
      | some _ =>
        (delete_channel b i).next
          (fun b1 => create_channel junk b1 i new_size (chan b1 i).defval)
      | none => Outcome.ok b).next (create_loop junk new_size (i + 1) n)

/-- The vector `new_size` of `create`: the base size plus both margins on every axis. -/
def total_size (sx sy sz margin_start margin_end : Int) : Vector3i :=
  { x := sx + margin_start + margin_end,
    y := sy + margin_start + margin_end,
    z := sz + margin_start + margin_end }

/-- The method `create(sx, sy, sz, margin_start, margin_end)`. -/
def create (junk : Nat → Int) (b : VoxelBuffer) (sx sy sz margin_start margin_end : Int) :
    Outcome VoxelBuffer :=
  if sx ≤ 0 ∨ sy ≤ 0 ∨ sz ≤ 0 then Outcome.ok b
  else
    let new_size : Vector3i := total_size sx sy sz margin_start margin_end
    (if new_size ≠ b.size then
      (create_loop junk new_size 0 MAX_CHANNELS b).next
        (fun b1 => Outcome.ok { b1 with size := new_size })
    else Outcome.ok b).next
      (fun b2 => Outcome.ok { b2 with margin_start := margin_start, margin_end := margin_end })

/-- The method `clear_channel(channel_index, clear_value)`. -/
def clear_channel (b : VoxelBuffer) (channel_index : Nat) (clear_value : Int) :
    Outcome VoxelBuffer :=
  if ¬ channel_index < MAX_CHANNELS then Outcome.failed b
  else
    (match (chan b channel_index).data with
      | some _ => delete_channel b channel_index
      | none => Outcome.ok b).next
      (fun b1 => Outcome.ok
        (set_chan b1 channel_index { chan b1 channel_index with defval := to_uint8 clear_value }))

/-- The method `get_voxel(x, y, z, channel_index)`. -/
def get_voxel (b : VoxelBuffer) (x y z : Int) (channel_index : Nat) : Outcome Int :=
  if ¬ channel_index < MAX_CHANNELS then Outcome.failed 0
  else
    let channel := chan b channel_index
    let x1 := x + (b.margin_start + b.margin_end)
    let y1 := y + (b.margin_start + b.margin_end)
    let z1 := z + (b.margin_start + b.margin_end)
    match validate_pos b x1 y1 z1, channel.data with
    | true, some d => Outcome.ofMem (d[index b x1 y1 z1]?) Outcome.ok
    | _, _ => Outcome.ok channel.defval

/-- The method `set_voxel(value, x, y, z, channel_index)`. -/
def set_voxel (junk : Nat → Int) (b : VoxelBuffer) (value x y z : Int) (channel_index : Nat) :
    Outcome VoxelBuffer :=
  if ¬ channel_index < MAX_CHANNELS then Outcome.failed b
  else
    let x1 := x + (b.margin_start + b.margin_end)
    let y1 := y + (b.margin_start + b.margin_end)
    let z1 := z + (b.margin_start + b.margin_end)
    if ¬ validate_pos b x1 y1 z1 then Outcome.failed b
    else
      match (chan b channel_index).data with
      | none =>
        if (chan b channel_index).defval ≠ value then
          (create_channel junk b channel_index b.size (chan b channel_index).defval).next
            (fun b1 =>
              Outcome.ofMem ((chan b1 channel_index).data.bind
                  (fun d => store d (index b1 x1 y1 z1) value))
                (fun d => Outcome.ok
                  (set_chan b1 channel_index { chan b1 channel_index with data := some d })))
        else Outcome.ok b
      | some d =>
        Outcome.ofMem (store d (index b x1 y1 z1) value)
          (fun d1 => Outcome.ok
            (set_chan b channel_index { chan b channel_index with data := some d1 }))

/-- The method `fill(defval, channel_index)`. -/
def fill (junk : Nat → Int) (b : VoxelBuffer) (defval : Int) (channel_index : Nat) :
    Outcome VoxelBuffer :=
  if ¬ channel_index < MAX_CHANNELS then Outcome.failed b
  else
    match (chan b channel_index).data with
    | none =>
      if (chan b channel_index).defval = defval then Outcome.ok b
      else Outcome.ok
        (set_chan b channel_index { chan b channel_index with defval := to_uint8 defval })
    | some _ =>
      let b1 := create_channel_noinit junk b channel_index b.size
      let volume := get_volume b1
      Outcome.ofMem ((chan b1 channel_index).data.bind (fun d => memset d 0 defval volume))
        (fun d => Outcome.ok
          (set_chan b1 channel_index { chan b1 channel_index with data := some d }))

/-- The loop of `is_uniform`: compares `data[i], data[i+1], ..., data[i+n-1]` with
`voxel` and stops at the first difference. -/
def is_uniform_scan (data : List Int) (voxel : Int) : Nat → Nat → Outcome Bool
  | _, 0 => Outcome.ok true
  | i, n + 1 =>
    Outcome.ofMem (data[i]?)
      (fun d => if d ≠ voxel then Outcome.ok false else is_uniform_scan data voxel (i + 1) n)

/-- The method `is_uniform(channel_index)`. -/
def is_uniform (b : VoxelBuffer) (channel_index : Nat) : Outcome Bool :=
  if ¬ channel_index < MAX_CHANNELS then Outcome.failed true
  else
    match (chan b channel_index).data with
    | none => Outcome.ok true
    | some d =>
      Outcome.ofMem (d[0]?)
        (fun voxel => is_uniform_scan d voxel 1 (get_volume b - 1))

/-- Body of the loop of `compress_uniform_channels` for channel `i`. -/
def compress_step (b : VoxelBuffer) (i : Nat) : Outcome VoxelBuffer :=
  match (chan b i).data with
  | none => Outcome.ok b
  | some d =>
    (is_uniform b i).next
      (fun u =>
        if u then
          Outcome.ofMem (d[0]?) (fun v => (clear_channel b i v).next Outcome.ok)
        else Outcome.ok b)

/-- The loop of `compress_uniform_channels` over the channels `i, ..., i+n-1`. -/
def compress_loop : Nat → Nat → VoxelBuffer → Outcome VoxelBuffer
  | _, 0, b => Outcome.ok b
  | i, n + 1, b => (compress_step b i).next (compress_loop (i + 1) n)

/-- The method `compress_uniform_channels()`. -/
def compress_uniform_channels (b : VoxelBuffer) : Outcome VoxelBuffer :=
  compress_loop 0 MAX_CHANNELS b

/-- The whole-buffer overload `copy_from(other, channel_index)`. -/
def copy_from (junk : Nat → Int) (b other : VoxelBuffer) (channel_index : Nat) :
    Outcome VoxelBuffer :=
  if ¬ channel_index < MAX_CHANNELS then Outcome.failed b
  else if other.size = b.size then Outcome.failed b
  else
    let other_channel := chan other channel_index
    (match other_channel.data with
      | some od =>
        let b1 :=
          match (chan b channel_index).data with
          | none => create_channel_noinit junk b channel_index b.size
          | some _ => b
        Outcome.ofMem ((chan b1 channel_index).data.bind
            (fun d => memcpy d 0 od 0 (get_volume b1)))
          (fun d => Outcome.ok
            (set_chan b1 channel_index { chan b1 channel_index with data := some d }))
      | none =>
        match (chan b channel_index).data with
        | some _ => delete_channel b channel_index
        | none => Outcome.ok b).next
      (fun b2 => Outcome.ok
        (set_chan b2 channel_index { chan b2 channel_index with defval := other_channel.defval }))

/-! ## Operations on boxes: `try_set_voxel`, `fill_area`, the region `copy_from`,
`generate_ao` -/

/-- Channel index `CHANNEL_ISOLEVEL`: second entry of `CHANNEL_ID_HINT_STRING` and of the
enumeration bound in `_bind_methods`. -/
def CHANNEL_ISOLEVEL : Nat := 1

/-- Channel index `CHANNEL_AO`: sixth entry of `CHANNEL_ID_HINT_STRING` and of the
enumeration bound in `_bind_methods`. -/
def CHANNEL_AO : Nat := 5

/-- Modelled from the spec: the default constructor of `Vector3i` is declared in the absent
`vector3i.h`; a loop variable `Vector3i pos;` starts at the zero vector, so that the rows
of `fill_area` and of the region `copy_from` are the contiguous Y runs of the box, as the
spec describes them. -/
def Vector3i.zero : Vector3i := { x := 0, y := 0, z := 0 }

/-- Sum of two vectors (`operator+`). -/
def Vector3i.add (a b : Vector3i) : Vector3i :=
  { x := a.x + b.x, y := a.y + b.y, z := a.z + b.z }

/-- Difference of two vectors (`operator-`). -/
def Vector3i.sub (a b : Vector3i) : Vector3i :=
  { x := a.x - b.x, y := a.y - b.y, z := a.z - b.z }

/-- Modelled from the spec: `Vector3i::sort_min_max` is declared in the absent
`vector3i.h`; the two corners are sorted per axis, the smaller coordinate going to the
first vector. -/
def sort_min_max (a b : Vector3i) : Vector3i × Vector3i :=
  ({ x := if a.x > b.x then b.x else a.x,
     y := if a.y > b.y then b.y else a.y,
     z := if a.z > b.z then b.z else a.z },
   { x := if a.x > b.x then a.x else b.x,
     y := if a.y > b.y then a.y else b.y,
     z := if a.z > b.z then a.z else b.z })

/-- Clamp of one coordinate into `lo ≤ v < hi`. -/
def clamp_axis (v lo hi : Int) : Int :=
  let v1 := if v < lo then lo else v
  if v1 ≥ hi then hi - 1 else v1

/-- Modelled from the spec: `Vector3i::clamp_to` is declared in the absent `vector3i.h`;
every coordinate is clamped between the two bounds, the upper bound being excluded (the
callers pass `size` for the origin of a box and `size + 1` for its end). -/
def clamp_to (v lo hi : Vector3i) : Vector3i :=
  { x := clamp_axis v.x lo.x hi.x,
    y := clamp_axis v.y lo.y hi.y,
    z := clamp_axis v.z lo.z hi.z }

/-- The method `try_set_voxel(x, y, z, value, channel_index)`. -/
def try_set_voxel (junk : Nat → Int) (b : VoxelBuffer) (x y z value : Int)
    (channel_index : Nat) : Outcome VoxelBuffer :=
  if ¬ channel_index < MAX_CHANNELS then Outcome.failed b
  else
    let x1 := x + (b.margin_start + b.margin_end)
    let y1 := y + (b.margin_start + b.margin_end)
    let z1 := z + (b.margin_start + b.margin_end)
    if ¬ validate_pos b x1 y1 z1 then Outcome.ok b
    else
      match (chan b channel_index).data with
      | none =>
        if (chan b channel_index).defval ≠ value then
          (create_channel junk b channel_index b.size (chan b channel_index).defval).next
            (fun b1 =>
              Outcome.ofMem ((chan b1 channel_index).data.bind
                  (fun d => store d (index b1 x1 y1 z1) value))
                (fun d => Outcome.ok
                  (set_chan b1 channel_index { chan b1 channel_index with data := some d })))
        else Outcome.ok b
      | some d =>
        Outcome.ofMem (store d (index b x1 y1 z1) value)
          (fun d1 => Outcome.ok
            (set_chan b channel_index { chan b channel_index with data := some d1 }))

/-- Inner loop of `fill_area` over `pos.x = x, ..., x+n-1` at a fixed `pos.z = z`: one
`memset` of `area_y` bytes per row, after the `CRASH_COND` on the start of the row. -/
def fill_area_x_loop (b : VoxelBuffer) (defval : Int) (min_y area_y z : Int) :
    Int → Nat → List Int → Outcome (List Int)
  | _, 0, d => Outcome.ok d
  | x, n + 1, d =>
    let dst_ri := index b x (Vector3i.zero.y + min_y) z
    if dst_ri ≥ get_volume b then Outcome.crash
    else
      Outcome.ofMem (memset d dst_ri defval area_y.toNat)
        (fun d1 => fill_area_x_loop b defval min_y area_y z (x + 1) n d1)

/-- Outer loop of `fill_area` over `pos.z = z, ..., z+n-1`. -/
def fill_area_z_loop (b : VoxelBuffer) (defval : Int) (min_x min_y area_y : Int) (nx : Nat) :
    Int → Nat → List Int → Outcome (List Int)
  | _, 0, d => Outcome.ok d
  | z, n + 1, d =>
    (fill_area_x_loop b defval min_y area_y z min_x nx d).next
      (fun d1 => fill_area_z_loop b defval min_x min_y area_y nx (z + 1) n d1)

/-- The two nested loops of `fill_area` applied to the array of channel `channel_index`. -/
def fill_area_rows (b : VoxelBuffer) (defval : Int) (min max : Vector3i) (channel_index : Nat) :
    Outcome VoxelBuffer :=
  Outcome.ofMem (chan b channel_index).data
    (fun d =>
      (fill_area_z_loop b defval min.x min.y (max.y - min.y) (max.x - min.x).toNat
          min.z (max.z - min.z).toNat d).next
        (fun d1 => Outcome.ok
          (set_chan b channel_index { chan b channel_index with data := some d1 })))

/-- The box of `fill_area`: `min` and `max` after `sort_min_max` and after the two calls
`clamp_to(Vector3i(0, 0, 0), _size + Vector3i(1, 1, 1))`. -/
def fill_area_box (b : VoxelBuffer) (min max : Vector3i) : Vector3i × Vector3i :=
  let sorted := sort_min_max min max
  let bound := b.size.add { x := 1, y := 1, z := 1 }
  (clamp_to sorted.1 { x := 0, y := 0, z := 0 } bound,
   clamp_to sorted.2 { x := 0, y := 0, z := 0 } bound)

/-- The method `fill_area(defval, min, max, channel_index)`. -/
def fill_area (junk : Nat → Int) (b : VoxelBuffer) (defval : Int) (min max : Vector3i)
    (channel_index : Nat) : Outcome VoxelBuffer :=
  if ¬ channel_index < MAX_CHANNELS then Outcome.failed b
  else
    let min1 := (fill_area_box b min max).1
    let max1 := (fill_area_box b min max).2
    let area_size := max1.sub min1
    if area_size.x = 0 ∨ area_size.y = 0 ∨ area_size.z = 0 then Outcome.ok b
    else
      match (chan b channel_index).data with
      | none =>
        if (chan b channel_index).defval = defval then Outcome.ok b
        else
          (create_channel junk b channel_index b.size (chan b channel_index).defval).next
            (fun b1 => fill_area_rows b1 defval min1 max1 channel_index)
      | some _ => fill_area_rows b defval min1 max1 channel_index

/-- Inner loop of the region `copy_from` over `pos.x = px, ..., px+n-1` at a fixed `pos.z`:
per row either a `memcpy` from the source array (`src = some od`) or a `memset` with the
default of the source (`src = none`). -/
def copy_area_x_loop (b other : VoxelBuffer) (src : Option (List Int)) (other_defval : Int)
    (src_min dst_min : Vector3i) (area_y pz : Int) :
    Int → Nat → List Int → Outcome (List Int)
  | _, 0, d => Outcome.ok d
  | px, n + 1, d =>
    let dst_ri := index b (px + dst_min.x) (Vector3i.zero.y + dst_min.y) (pz + dst_min.z)
    Outcome.ofMem
      (match src with
        | some od =>
          memcpy d dst_ri od
            (index other (px + src_min.x) (Vector3i.zero.y + src_min.y) (pz + src_min.z))
            area_y.toNat
        | none => memset d dst_ri other_defval area_y.toNat)
      (fun d1 =>
        copy_area_x_loop b other src other_defval src_min dst_min area_y pz (px + 1) n d1)

/-- Outer loop of the region `copy_from` over `pos.z = pz, ..., pz+n-1`. -/
def copy_area_z_loop (b other : VoxelBuffer) (src : Option (List Int)) (other_defval : Int)
    (src_min dst_min : Vector3i) (area_y : Int) (nx : Nat) :
    Int → Nat → List Int → Outcome (List Int)
  | _, 0, d => Outcome.ok d
  | pz, n + 1, d =>
    (copy_area_x_loop b other src other_defval src_min dst_min area_y pz 0 nx d).next
      (fun d1 =>
        copy_area_z_loop b other src other_defval src_min dst_min area_y nx (pz + 1) n d1)

/-- Row-by-row part of the region `copy_from`: the destination channel is created with
its default when it is `NULL`, then the rows of the box are copied or set. -/
def copy_area_rows (junk : Nat → Int) (b other : VoxelBuffer) (src : Option (List Int))
    (other_defval : Int) (src_min dst_min area_size : Vector3i) (channel_index : Nat) :
    Outcome VoxelBuffer :=
  (match (chan b channel_index).data with
    | none => create_channel junk b channel_index b.size (chan b channel_index).defval
    | some _ => Outcome.ok b).next
    (fun b1 =>
      Outcome.ofMem (chan b1 channel_index).data
        (fun d =>
          (copy_area_z_loop b1 other src other_defval src_min dst_min area_size.y
              area_size.x.toNat 0 area_size.z.toNat d).next
            (fun d1 => Outcome.ok
              (set_chan b1 channel_index { chan b1 channel_index with data := some d1 }))))

/-- The region overload `copy_from(other, src_min, src_max, dst_min, channel_index)`
(bound to scripts as `copy_from_area`). -/
def copy_from_area (junk : Nat → Int) (b other : VoxelBuffer)
    (src_min src_max dst_min : Vector3i) (channel_index : Nat) : Outcome VoxelBuffer :=
  if ¬ channel_index < MAX_CHANNELS then Outcome.failed b
  else
    let other_channel := chan other channel_index
    let sorted := sort_min_max src_min src_max
    let src_min1 := clamp_to sorted.1 { x := 0, y := 0, z := 0 } other.size
    let src_max1 :=
      clamp_to sorted.2 { x := 0, y := 0, z := 0 } (other.size.add { x := 1, y := 1, z := 1 })
    let dst_min1 := clamp_to dst_min { x := 0, y := 0, z := 0 } b.size
    let area_size := src_max1.sub src_min1
    if area_size = b.size then (copy_from junk b other channel_index).next Outcome.ok
    else
      match other_channel.data with
      | some od =>
        copy_area_rows junk b other (some od) other_channel.defval src_min1 dst_min1 area_size
          channel_index
      | none =>
        if (chan b channel_index).defval ≠ other_channel.defval then
          copy_area_rows junk b other none other_channel.defval src_min1 dst_min1 area_size
            channel_index
        else Outcome.ok b

/-- Body of the loops of `generate_ao` for the cell `(x, y, z)`. -/
def generate_ao_cell (junk : Nat → Int) (b : VoxelBuffer) (x y z : Int) : Outcome VoxelBuffer :=
  (get_voxel b x y z CHANNEL_ISOLEVEL).next fun current =>
  (get_voxel b (x + 1) y z CHANNEL_ISOLEVEL).next fun s1 =>
  (get_voxel b (x - 1) y z CHANNEL_ISOLEVEL).next fun s2 =>
  (get_voxel b x (y + 1) z CHANNEL_ISOLEVEL).next fun s3 =>
  (get_voxel b x (y - 1) z CHANNEL_ISOLEVEL).next fun s4 =>
  (get_voxel b x y (z + 1) CHANNEL_ISOLEVEL).next fun s5 =>
  (get_voxel b x y (z - 1) CHANNEL_ISOLEVEL).next fun s6 =>
    let sum := Int.tdiv (s1 + s2 + s3 + s4 + s5 + s6) 6 - current
    let sum1 := if sum < 0 then 0 else sum
    (set_voxel junk b sum1 x y z CHANNEL_AO).next Outcome.ok

/-- Innermost loop of `generate_ao` over `x, ..., x+n-1`. -/
def generate_ao_x_loop (junk : Nat → Int) (y z : Int) :
    Int → Nat → VoxelBuffer → Outcome VoxelBuffer
  | _, 0, b => Outcome.ok b
  | x, n + 1, b => (generate_ao_cell junk b x y z).next (generate_ao_x_loop junk y z (x + 1) n)

/-- Middle loop of `generate_ao` over `z, ..., z+n-1`; the inner loop runs `nx` times
from `x = 1`. -/
def generate_ao_z_loop (junk : Nat → Int) (nx : Nat) (y : Int) :
    Int → Nat → VoxelBuffer → Outcome VoxelBuffer
  | _, 0, b => Outcome.ok b
  | z, n + 1, b =>
    (generate_ao_x_loop junk y z 1 nx b).next (generate_ao_z_loop junk nx y (z + 1) n)

/-- Outer loop of `generate_ao` over `y, ..., y+n-1`; the middle loop runs `nz` times
from `z = 1`. -/
def generate_ao_y_loop (junk : Nat → Int) (nx nz : Nat) :
    Int → Nat → VoxelBuffer → Outcome VoxelBuffer
  | _, 0, b => Outcome.ok b
  | y, n + 1, b =>
    (generate_ao_z_loop junk nx y 1 nz b).next (generate_ao_y_loop junk nx nz (y + 1) n)

/-- The method `generate_ao()`: the three loops run over `1 ≤ y < size_y - 1`,
`1 ≤ z < size_z - 1`, `1 ≤ x < size_x - 1`. -/
def generate_ao (junk : Nat → Int) (b : VoxelBuffer) : Outcome VoxelBuffer :=
  if b.size.x = 0 ∨ b.size.y = 0 ∨ b.size.z = 0 then Outcome.failed b
  else
    generate_ao_y_loop junk (b.size.x - 1 - 1).toNat (b.size.z - 1 - 1).toNat 1
      (b.size.y - 1 - 1).toNat b

/-- Value of channel `c` at the storage position `(x, y, z)` (no margin offset): the byte
of the array at `index(x, y, z)` when the channel is allocated, its default otherwise;
`none` when the index leaves the array. -/
def stored (b : VoxelBuffer) (c : Nat) (x y z : Int) : Option Int :=
  match (chan b c).data with
  | none => some (chan b c).defval
  | some d => d[index b x y z]?

/-- The position `(x, y, z)` lies in the half-open box `[min, max)`. -/
def in_box (min max : Vector3i) (x y z : Int) : Prop :=
  min.x ≤ x ∧ x < max.x ∧ min.y ≤ y ∧ y < max.y ∧ min.z ≤ z ∧ z < max.z

/-- The half-open box `[min, max)` is not empty and lies inside `[0, size)` on every
axis. -/
def box_inside (size min max : Vector3i) : Prop :=
  0 ≤ min.x ∧ min.x < max.x ∧ max.x ≤ size.x ∧
  0 ≤ min.y ∧ min.y < max.y ∧ max.y ≤ size.y ∧
  0 ≤ min.z ∧ min.z < max.z ∧ max.z ≤ size.z

instance (min max : Vector3i) (x y z : Int) : Decidable (in_box min max x y z) := by
  unfold in_box; infer_instance

instance (size min max : Vector3i) : Decidable (box_inside size min max) := by
  unfold box_inside; infer_instance

/-- The value carried by an outcome of a call that returned (`dflt` after a crash). -/
def Outcome.getD {α : Type} (o : Outcome α) (dflt : α) : α :=
  match o with
  | Outcome.ok a => a
  | Outcome.failed a => a
  | Outcome.crash => dflt

/-- The position `(x, y, z)` is an interior cell of the buffer: it keeps a distance of at
least one cell from every face. -/
def interior (b : VoxelBuffer) (x y z : Int) : Prop :=
  1 ≤ x ∧ x < b.size.x - 1 ∧ 1 ≤ y ∧ y < b.size.y - 1 ∧ 1 ≤ z ∧ z < b.size.z - 1

instance (b : VoxelBuffer) (x y z : Int) : Decidable (interior b x y z) := by
  unfold interior; infer_instance

/-- The value the loop body of `generate_ao` stores for the cell `(x, y, z)`, computed from
the isolevel channel of `b`. -/
def ao_value (b : VoxelBuffer) (x y z : Int) : Int :=
  let current := (get_voxel b x y z CHANNEL_ISOLEVEL).getD 0
  let sum :=
    Int.tdiv
      ((get_voxel b (x + 1) y z CHANNEL_ISOLEVEL).getD 0 +
        (get_voxel b (x - 1) y z CHANNEL_ISOLEVEL).getD 0 +
        (get_voxel b x (y + 1) z CHANNEL_ISOLEVEL).getD 0 +
        (get_voxel b x (y - 1) z CHANNEL_ISOLEVEL).getD 0 +
        (get_voxel b x y (z + 1) CHANNEL_ISOLEVEL).getD 0 +
        (get_voxel b x y (z - 1) CHANNEL_ISOLEVEL).getD 0) 6 - current
  if sum < 0 then 0 else sum

/-! ## Lights: `clear_lights` and `add_light` -/

/-- Channel index `CHANNEL_LIGHT_COLOR_R`: third entry of `CHANNEL_ID_HINT_STRING` and of
the enumeration bound in `_bind_methods`. -/
def CHANNEL_LIGHT_COLOR_R : Nat := 2

/-- Channel index `CHANNEL_LIGHT_COLOR_G`: fourth entry of `CHANNEL_ID_HINT_STRING`. -/
def CHANNEL_LIGHT_COLOR_G : Nat := 3

/-- Channel index `CHANNEL_LIGHT_COLOR_B`: fifth entry of `CHANNEL_ID_HINT_STRING`. -/
def CHANNEL_LIGHT_COLOR_B : Nat := 4

/-- The method `clear_lights()`. -/
def clear_lights (junk : Nat → Int) (b : VoxelBuffer) : Outcome VoxelBuffer :=
  (fill junk b 0 CHANNEL_LIGHT_COLOR_R).next fun b1 =>
  (fill junk b1 0 CHANNEL_LIGHT_COLOR_G).next fun b2 =>
  (fill junk b2 0 CHANNEL_LIGHT_COLOR_B).next Outcome.ok

/-- Modelled from the spec: the mesh sink of the mesher (methods of the absent
`voxel_mesher.h`): append-only sequences of vertex attributes and an index sequence. -/
structure MeshSink (A : Type) where
  vertices : List A
  normals : List A
  colors : List A
  uvs : List A
  uv2s : List A
  indices : List Nat

/-- The empty sink. -/
def MeshSink.empty (A : Type) : MeshSink A :=
  { vertices := [], normals := [], colors := [], uvs := [], uv2s := [], indices := [] }

/-- Modelled from the spec: `get_vertex_count()` of the sink, the number of vertices
appended so far. -/
def get_vertex_count {A : Type} (s : MeshSink A) : Nat := s.vertices.length

/-- Modelled from the spec: `add_indices(i)` appends one index. -/
def add_indices {A : Type} (s : MeshSink A) (i : Nat) : MeshSink A :=
  { s with indices := s.indices ++ [i] }

/-- Modelled from the spec: `add_vertex(v)` appends one vertex. -/
def add_vertex {A : Type} (s : MeshSink A) (v : A) : MeshSink A :=
  { s with vertices := s.vertices ++ [v] }

/-- Modelled from the spec: `add_normal(v)` appends one normal. -/
def add_normal {A : Type} (s : MeshSink A) (v : A) : MeshSink A :=
  { s with normals := s.normals ++ [v] }

/-- Modelled from the spec: `add_color(v)` appends one colour. -/
def add_color {A : Type} (s : MeshSink A) (v : A) : MeshSink A :=
  { s with colors := s.colors ++ [v] }

/-- Modelled from the spec: `add_uv(v)` appends one primary UV. -/
def add_uv {A : Type} (s : MeshSink A) (v : A) : MeshSink A :=
  { s with uvs := s.uvs ++ [v] }

/-- Modelled from the spec: `add_uv2(v)` appends one secondary UV. -/
def add_uv2 {A : Type} (s : MeshSink A) (v : A) : MeshSink A :=
  { s with uv2s := s.uv2s ++ [v] }

/-- What `_add_chunk` obtains from `VoxelCubePoints` (absent from the sources) for the
chunk after `generate_ao()`: whether a cell has points, whether a face of a cell is
visible, and the attribute values of corner `i` of face `face` of the cell `(x, y, z)`
(the results of the floating-point computations of normal, light colour, UV and
position). -/
structure CubePoints (A : Type) where
  has_points : Int → Int → Int → Bool
  is_face_visible : Int → Int → Int → Nat → Bool
  normal : Int → Int → Int → Nat → Nat → A
  color : Int → Int → Int → Nat → Nat → A
  uv : Int → Int → Int → Nat → Nat → A
  vertex : Int → Int → Int → Nat → Nat → A

/-- Modelled from the spec: `VoxelCubePoints::VOXEL_FACE_COUNT`, the six faces of a
cell. -/
def VOXEL_FACE_COUNT : Nat := 6

/-- The loop `for (int i = 0; i < 4; ++i)` of `_add_chunk` over the corners
`i, ..., i+n-1` of a face. -/
def add_corners {A : Type} (cp : CubePoints A) (x y z : Int) (face : Nat) :
    Nat → Nat → MeshSink A → MeshSink A
  | _, 0, s => s
  | i, n + 1, s =>
    let s1 := add_normal s (cp.normal x y z face i)
    let s2 := add_color s1 (cp.color x y z face i)
    let s3 := add_uv s2 (cp.uv x y z face i)
    let s4 := add_uv2 s3 (cp.uv x y z face i)
    let s5 := add_vertex s4 (cp.vertex x y z face i)
    add_corners cp x y z face (i + 1) n s5

/-- Body of the face loop of `_add_chunk` for a visible face: six indices relative to the
current vertex count, then the four corners. -/
def add_face {A : Type} (cp : CubePoints A) (x y z : Int) (face : Nat) (s : MeshSink A) :
    MeshSink A :=
  let s1 := add_indices s (get_vertex_count s + 2)
  let s2 := add_indices s1 (get_vertex_count s1 + 1)
  let s3 := add_indices s2 (get_vertex_count s2 + 0)
  let s4 := add_indices s3 (get_vertex_count s3 + 3)
  let s5 := add_indices s4 (get_vertex_count s4 + 2)
  let s6 := add_indices s5 (get_vertex_count s5 + 0)
  add_corners cp x y z face 0 4 s6

/-- The face loop of `_add_chunk` over the faces `face, ..., face+n-1` of a cell. -/
def mesh_face_loop {A : Type} (cp : CubePoints A) (x y z : Int) :
    Nat → Nat → MeshSink A → MeshSink A
  | _, 0, s => s
  | face, n + 1, s =>
    mesh_face_loop cp x y z (face + 1) n
      (if ¬ cp.is_face_visible x y z face then s else add_face cp x y z face s)

/-- Body of the cell loops of `_add_chunk`. -/
def mesh_cell {A : Type} (cp : CubePoints A) (x y z : Int) (s : MeshSink A) : MeshSink A :=
  if ¬ cp.has_points x y z then s else mesh_face_loop cp x y z 0 VOXEL_FACE_COUNT s

/-- The loop of `_add_chunk` over `x, ..., x+n-1`. -/
def mesh_x_loop {A : Type} (cp : CubePoints A) (y z : Int) :
    Int → Nat → MeshSink A → MeshSink A
  | _, 0, s => s
  | x, n + 1, s => mesh_x_loop cp y z (x + 1) n (mesh_cell cp x y z s)

/-- The loop of `_add_chunk` over `z, ..., z+n-1`. -/
def mesh_z_loop {A : Type} (cp : CubePoints A) (x_size : Int) (y : Int) :
    Int → Nat → MeshSink A → MeshSink A
  | _, 0, s => s
  | z, n + 1, s => mesh_z_loop cp x_size y (z + 1) n (mesh_x_loop cp y z 0 x_size.toNat s)

/-- The loop of `_add_chunk` over `y, ..., y+n-1`. -/
def mesh_y_loop {A : Type} (cp : CubePoints A) (x_size z_size : Int) :
    Int → Nat → MeshSink A → MeshSink A
  | _, 0, s => s
  | y, n + 1, s =>
    mesh_y_loop cp x_size z_size (y + 1) n (mesh_z_loop cp x_size y 0 z_size.toNat s)

/-- The method `VoxelMesherCubic::_add_chunk` for a valid chunk of size
`x_size x y_size x z_size`, appending to the sink `s`. -/
def _add_chunk {A : Type} (cp : CubePoints A) (x_size y_size z_size : Int) (s : MeshSink A) :
    MeshSink A :=
  mesh_y_loop cp x_size z_size 0 y_size.toNat s

/-- Number of visible faces among the faces `face, ..., face+n-1` of a cell. -/
def count_faces {A : Type} (cp : CubePoints A) (x y z : Int) : Nat → Nat → Nat
  | _, 0 => 0
  | face, n + 1 =>
    (if cp.is_face_visible x y z face then 1 else 0) + count_faces cp x y z (face + 1) n

/-- Number of visible faces of a cell (none when the cell has no points). -/
def count_cell {A : Type} (cp : CubePoints A) (x y z : Int) : Nat :=
  if cp.has_points x y z then count_faces cp x y z 0 VOXEL_FACE_COUNT else 0

/-- Number of visible faces of the cells `(x, y, z), ..., (x+n-1, y, z)`. -/
def count_x {A : Type} (cp : CubePoints A) (y z : Int) : Int → Nat → Nat
  | _, 0 => 0
  | x, n + 1 => count_cell cp x y z + count_x cp y z (x + 1) n

/-- Number of visible faces of the cells with `z, ..., z+n-1` and `0 ≤ x < x_size`. -/
def count_z {A : Type} (cp : CubePoints A) (x_size : Int) (y : Int) : Int → Nat → Nat
  | _, 0 => 0
  | z, n + 1 => count_x cp y z 0 x_size.toNat + count_z cp x_size y (z + 1) n

/-- Number of visible faces of the cells with `y, ..., y+n-1`, `0 ≤ z < z_size` and
`0 ≤ x < x_size`. -/
def count_y {A : Type} (cp : CubePoints A) (x_size z_size : Int) : Int → Nat → Nat
  | _, 0 => 0
  | y, n + 1 => count_z cp x_size y 0 z_size.toNat + count_y cp x_size z_size (y + 1) n

/-- Number `F` of visible faces of non-empty cells of a chunk. -/
def visible_faces {A : Type} (cp : CubePoints A) (x_size y_size z_size : Int) : Nat :=
  count_y cp x_size z_size 0 y_size.toNat

/-- The index sequence of `k` faces emitted from an empty sink: for the `j`-th face the
six indices `4j+2, 4j+1, 4j, 4j+3, 4j+2, 4j`. -/
def face_indices : Nat → List Nat
  | 0 => []
  | k + 1 => face_indices k ++ [4 * k + 2, 4 * k + 1, 4 * k + 0, 4 * k + 3, 4 * k + 2, 4 * k + 0]

/-- The sink holds exactly what `k` faces emitted into an empty sink leave: four entries
per face in every attribute sequence and the index sequence `face_indices k`. -/
def emitted {A : Type} (s : MeshSink A) (k : Nat) : Prop :=
  s.vertices.length = 4 * k ∧ s.normals.length = 4 * k ∧ s.colors.length = 4 * k ∧
  s.uvs.length = 4 * k ∧ s.uv2s.length = 4 * k ∧ s.indices = face_indices k

/-- A single solid voxel: every cell has points and every face is visible. -/
def solid_points : CubePoints Nat :=
  { has_points := fun _ _ _ => true,
    is_face_visible := fun _ _ _ _ => true,
    normal := fun _ _ _ face i => 4 * face + i,
    color := fun _ _ _ face i => 4 * face + i,
    uv := fun _ _ _ face i => 4 * face + i,
    vertex := fun _ _ _ face i => 4 * face + i }

/-! ## The library (`library/voxelman_library_merger.cpp`) -/

/-- State of the surface list of a `VoxelmanLibraryMerger`. A `Ref<VoxelSurface>` is
`none` (the null reference) or `some h`, `h` naming the surface object; `attached` lists
the surface objects whose library is currently set to this library (`set_library`). -/
structure SurfaceList where
  voxel_surfaces : List (Option Nat)
  attached : List Nat
deriving DecidableEq, Repr

/-- The call `Vector::resize(n)` for `n` above the current size: null references are
appended. -/
def vector_resize (v : List (Option Nat)) (n : Nat) : List (Option Nat) :=
  v.take n ++ List.replicate (n - v.length) none

/-- The method `set_voxel_surface(index, value)`. Indexing the vector outside its size is
a crash (`CRASH_BAD_INDEX`). -/
def set_voxel_surface (s : SurfaceList) (index : Int) (value : Option Nat) :
    Outcome SurfaceList :=
  if index < 0 then Outcome.failed s
  else
    let s1 : SurfaceList :=
      if (s.voxel_surfaces.length : Int) < index then
        { s with voxel_surfaces := vector_resize s.voxel_surfaces (index + 1).toNat }
      else s
    Outcome.ofMem (s1.voxel_surfaces[index.toNat]?)
      (fun old =>
        let s2 : SurfaceList :=
          match old with
          | some h => { s1 with attached := s1.attached.filter (fun a => a ≠ h) }
          | none => s1
        match value with
        | some v =>
          Outcome.ok
            { voxel_surfaces := s2.voxel_surfaces.set index.toNat (some v),
              attached := v :: s2.attached }
        | none => Outcome.ok s2)

/-- The method `get_voxel_surface(index)`. -/
def get_voxel_surface (s : SurfaceList) (index : Int) : Outcome (Option Nat) :=
  if index < 0 ∨ index ≥ s.voxel_surfaces.length then Outcome.failed none
  else Outcome.ofMem (s.voxel_surfaces[index.toNat]?) Outcome.ok

/-- The method `get_num_surfaces()`. -/
def get_num_surfaces (s : SurfaceList) : Int := s.voxel_surfaces.length

/-- A prop object (`PropData`, absent from the sources): its own id (`get_id()`) and a
name telling objects with equal ids apart. -/
structure PropData where
  id : Int
  name : Nat
deriving DecidableEq, Repr

/-- Lookup in the map `_props` (`Map<int, Ref<PropData>>`), kept as a list of entries with
distinct keys. -/
def props_find (m : List (Int × PropData)) (key : Int) : Option PropData :=
  match m with
  | [] => none
  | (k, v) :: rest => if k = key then some v else props_find rest key

/-- The assignment `_props[key] = value`: replaces the entry of `key` or inserts one. -/
def props_assign (m : List (Int × PropData)) (key : Int) (value : PropData) :
    List (Int × PropData) :=
  match m with
  | [] => [(key, value)]
  | (k, v) :: rest =>
    if k = key then (k, value) :: rest else (k, v) :: props_assign rest key value

/-- The method `get_prop(id)`: the entry of `id`, or the null reference. -/
def get_prop (m : List (Int × PropData)) (id : Int) : Option PropData :=
  props_find m id

/-- The method `set_prop(id, value)`: the entry is stored under `value->get_id()`; a null
`value` is dereferenced. -/
def set_prop (m : List (Int × PropData)) (_id : Int) (value : Option PropData) :
    Outcome (List (Int × PropData)) :=
  Outcome.ofMem value (fun v => Outcome.ok (props_assign m v.id v))

/-- The state of a freshly constructed buffer with the given size: no channel allocated,
every default `0`. -/
def blank (sx sy sz : Int) : VoxelBuffer :=
  { channels := List.replicate MAX_CHANNELS { data := none, defval := 0 },
    size := { x := sx, y := sy, z := sz },
    margin_start := 0,
    margin_end := 0 }

/-- A value of type `uint8_t`. -/
def is_byte (v : Int) : Prop := 0 ≤ v ∧ v < 256

/-- Well-formed channel of a buffer of volume `vol`: the default is a byte, and an
allocated array holds exactly `vol` bytes and is not an empty block. -/
def wf_channel (vol : Nat) (ch : Channel) : Prop :=
  is_byte ch.defval ∧
  match ch.data with
  | none => True
  | some d => d.length = vol ∧ d ≠ [] ∧ ∀ v ∈ d, is_byte v

/-- Well-formed buffer state: ten channels, a non-negative size, and every channel
well-formed for the volume of the buffer. -/
def WF (b : VoxelBuffer) : Prop :=
  b.channels.length = MAX_CHANNELS ∧
  0 ≤ b.size.x ∧ 0 ≤ b.size.y ∧ 0 ≤ b.size.z ∧
  ∀ ch ∈ b.channels, wf_channel (get_volume b) ch

/-- No channel of the buffer is allocated (the state right after construction, or after
`clear`). -/
def all_unallocated (b : VoxelBuffer) : Prop :=
  ∀ ch ∈ b.channels, ch.data = none

instance (v : Int) : Decidable (is_byte v) := by
  unfold is_byte; infer_instance

instance (vol : Nat) (ch : Channel) : Decidable (wf_channel vol ch) := by
  unfold wf_channel
  cases ch.data <;> infer_instance

instance (b : VoxelBuffer) : Decidable (WF b) := by
  unfold WF; infer_instance

instance (b : VoxelBuffer) : Decidable (all_unallocated b) := by
  unfold all_unallocated; infer_instance


/-- Invariant of the loops of `generate_ao`, relating the state `b` reached so far to the
state `b0` at the start of the call: `b` is well-formed with the size and margins of
`b0`, every channel but the AO channel is as in `b0`, and the AO channel holds the
computed value at the cells already processed (those satisfying `P`) and reads as in `b0`
everywhere else. -/
def ao_inv (b0 b : VoxelBuffer) (P : Int → Int → Int → Prop) : Prop :=
  WF b ∧ b.size = b0.size ∧ b.margin_start = b0.margin_start ∧
  b.margin_end = b0.margin_end ∧
  (∀ c, c ≠ CHANNEL_AO → chan b c = chan b0 c) ∧
  ∀ x y z : Int,
    (P x y z → get_voxel b x y z CHANNEL_AO = Outcome.ok (ao_value b0 x y z)) ∧
    (¬ P x y z → get_voxel b x y z CHANNEL_AO = get_voxel b0 x y z CHANNEL_AO)

/-- Fresh memory in which every byte is `0`. -/
def zero_mem : Nat → Int := fun _ => 0

/-- Fresh memory in which every byte is the stale value `7`. -/
def stale_mem : Nat → Int := fun _ => 7

/-- A `1x1x1` buffer whose channel `0` is allocated with the single byte `5`, default `0`. -/
def sample_unit : VoxelBuffer :=
  set_chan (blank 1 1 1) 0 { data := some [5], defval := 0 }

/-- A `2x1x1` buffer whose channel `0` is allocated with the bytes `1, 2`, default `0`. -/
def sample_pair : VoxelBuffer :=
  set_chan (blank 2 1 1) 0 { data := some [1, 2], defval := 0 }

/-- A `2x1x1` buffer whose channel `0` is unallocated with default `7`. -/
def sample_flat : VoxelBuffer :=
  set_chan (blank 2 1 1) 0 { data := none, defval := 7 }

/-- A `3x3x3` buffer with margins `1` and `1` (base size `1x1x1`) whose channel `1` holds
the bytes `0, 1, ..., 26` in storage order. -/
def sample_margin : VoxelBuffer :=
  { set_chan (blank 3 3 3) 1
      { data := some ((List.range 27).map (fun k => (k : Int))), defval := 0 } with
    margin_start := 1,
    margin_end := 1 }

/-- A `3x3x3` buffer without margins whose channel `1` holds the bytes `0, 1, ..., 26` in
storage order. -/
def sample_cube : VoxelBuffer :=
  set_chan (blank 3 3 3) 1
    { data := some ((List.range 27).map (fun k => (k : Int))), defval := 0 }

/-- A `2x1x1` buffer in which every channel is unallocated with default `0`, except
channel `0`, which is allocated with the bytes `4, 4`. -/
def sample_even : VoxelBuffer :=
  set_chan (blank 2 1 1) 0 { data := some [4, 4], defval := 0 }

/-- The scene of the ambient-occlusion scenario: a `4x4x4` buffer without margins whose
isolevel channel is `1` everywhere except `0` at `(2,2,2)`, every other channel being
unallocated with default `0`. -/
def ao_scene : VoxelBuffer :=
  set_chan (blank 4 4 4) CHANNEL_ISOLEVEL
    { data := some ((List.replicate 64 (1 : Int)).set 42 0), defval := 1 }

/-- A `1x1x1` buffer whose red light channel is allocated with the byte `9` and has the
default `5`. -/
def sample_lamp : VoxelBuffer :=
  set_chan (blank 1 1 1) CHANNEL_LIGHT_COLOR_R { data := some [9], defval := 5 }

/-! ## Basic facts about outcomes, channels and memory -/

@[simp] theorem next_ok {α β : Type} (a : α) (k : α → Outcome β) :
    (Outcome.ok a).next k = k a := rfl

@[simp] theorem next_crash {α β : Type} (k : α → Outcome β) :
    (Outcome.crash : Outcome α).next k = Outcome.crash := rfl

@[simp] theorem ofMem_some {α β : Type} (a : α) (k : α → Outcome β) :
    Outcome.ofMem (some a) k = k a := rfl

@[simp] theorem ofMem_none {α β : Type} (k : α → Outcome β) :
    Outcome.ofMem (none : Option α) k = Outcome.crash := rfl

@[simp] theorem set_chan_size (b : VoxelBuffer) (i : Nat) (ch : Channel) :
    (set_chan b i ch).size = b.size := rfl

@[simp] theorem set_chan_margin_start (b : VoxelBuffer) (i : Nat) (ch : Channel) :
    (set_chan b i ch).margin_start = b.margin_start := rfl

@[simp] theorem set_chan_margin_end (b : VoxelBuffer) (i : Nat) (ch : Channel) :
    (set_chan b i ch).margin_end = b.margin_end := rfl

@[simp] theorem set_chan_length (b : VoxelBuffer) (i : Nat) (ch : Channel) :
    (set_chan b i ch).channels.length = b.channels.length := by
  simp [set_chan]

@[simp] theorem set_chan_volume (b : VoxelBuffer) (i : Nat) (ch : Channel) :
    get_volume (set_chan b i ch) = get_volume b := rfl

@[simp] theorem set_chan_index (b : VoxelBuffer) (i : Nat) (ch : Channel) (x y z : Int) :
    index (set_chan b i ch) x y z = index b x y z := rfl

@[simp] theorem set_chan_validate (b : VoxelBuffer) (i : Nat) (ch : Channel) (x y z : Int) :
    validate_pos (set_chan b i ch) x y z = validate_pos b x y z := rfl

theorem chan_set_chan_self (b : VoxelBuffer) (i : Nat) (ch : Channel)
    (h : i < b.channels.length) : chan (set_chan b i ch) i = ch := by
  simp [chan, set_chan, List.getD_eq_getElem?_getD, List.getElem?_set, h]

theorem chan_set_chan_ne (b : VoxelBuffer) (i j : Nat) (ch : Channel) (h : i ≠ j) :
    chan (set_chan b i ch) j = chan b j := by
  simp [chan, set_chan, List.getD_eq_getElem?_getD, List.getElem?_set, h]

theorem set_chan_set_chan (b : VoxelBuffer) (i : Nat) (ch1 ch2 : Channel) :
    set_chan (set_chan b i ch1) i ch2 = set_chan b i ch2 := by
  simp [set_chan, List.set_set]

theorem chan_mem (b : VoxelBuffer) (i : Nat) (h : i < b.channels.length) :
    chan b i ∈ b.channels := by
  simp only [chan, List.getD_eq_getElem?_getD, List.getElem?_eq_getElem h, Option.getD_some]
  exact List.getElem_mem h

theorem set_chan_chan (b : VoxelBuffer) (i : Nat) : set_chan b i (chan b i) = b := by
  cases b with
  | mk chs sz ms me =>
    simp only [set_chan, chan, VoxelBuffer.mk.injEq, and_true]
    by_cases h : i < chs.length
    · apply List.ext_getElem?
      intro j
      by_cases hj : i = j
      · subst hj
        simp [List.getElem?_set, List.getD_eq_getElem?_getD, h]
      · simp [List.getElem?_set, hj]
    · exact List.set_eq_of_length_le (by omega)

theorem buffer_ext (b1 b2 : VoxelBuffer) (hs : b1.size = b2.size)
    (hms : b1.margin_start = b2.margin_start) (hme : b1.margin_end = b2.margin_end)
    (hl : b1.channels.length = b2.channels.length)
    (hc : ∀ j, j < b1.channels.length → chan b1 j = chan b2 j) : b1 = b2 := by
  cases b1 with
  | mk c1 s1 m1 e1 =>
    cases b2 with
    | mk c2 s2 m2 e2 =>
      simp only [VoxelBuffer.mk.injEq]
      refine ⟨?_, hs, hms, hme⟩
      apply List.ext_getElem hl
      intro j h1 h2
      have := hc j h1
      simpa [chan, List.getD_eq_getElem?_getD, List.getElem?_eq_getElem h1,
        List.getElem?_eq_getElem h2] using this

theorem index_lt_volume (b : VoxelBuffer) (x y z : Int) (h : validate_pos b x y z = true) :
    index b x y z < get_volume b := by
  simp only [validate_pos, decide_eq_true_eq] at h
  obtain ⟨hx0, hx, hy0, hy, hz0, hz⟩ := h
  have h1 : x + b.size.x * z + 1 ≤ b.size.x * b.size.z := by nlinarith
  have h2 : b.size.y * (x + b.size.x * z + 1) ≤ b.size.y * (b.size.x * b.size.z) :=
    Int.mul_le_mul_of_nonneg_left h1 (by omega)
  have h3 : 0 ≤ b.size.y * (x + b.size.x * z) :=
    Int.mul_nonneg (by omega) (Int.add_nonneg hx0 (Int.mul_nonneg (by omega) hz0))
  have h4 : y + b.size.y * (x + b.size.x * z) < b.size.x * b.size.y * b.size.z := by nlinarith
  unfold index get_volume
  omega

theorem to_uint8_of_byte (v : Int) (h : is_byte v) : to_uint8 v = v := by
  unfold is_byte at h
  unfold to_uint8
  omega

theorem WF.wf_chan {b : VoxelBuffer} (h : WF b) (c : Nat) (hc : c < MAX_CHANNELS) :
    wf_channel (get_volume b) (chan b c) :=
  h.2.2.2.2 _ (chan_mem b c (by rw [h.1]; exact hc))

theorem WF.data_length {b : VoxelBuffer} (h : WF b) (c : Nat) (hc : c < MAX_CHANNELS)
    (d : List Int) (hd : (chan b c).data = some d) : d.length = get_volume b := by
  have := h.wf_chan c hc
  simp only [wf_channel, hd] at this
  exact this.2.1

theorem WF.data_ne_nil {b : VoxelBuffer} (h : WF b) (c : Nat) (hc : c < MAX_CHANNELS)
    (d : List Int) (hd : (chan b c).data = some d) : d ≠ [] := by
  have := h.wf_chan c hc
  simp only [wf_channel, hd] at this
  exact this.2.2.1

theorem WF.data_byte {b : VoxelBuffer} (h : WF b) (c : Nat) (hc : c < MAX_CHANNELS)
    (d : List Int) (hd : (chan b c).data = some d) : ∀ v ∈ d, is_byte v := by
  have := h.wf_chan c hc
  simp only [wf_channel, hd] at this
  exact this.2.2.2

theorem memalloc_length (junk : Nat → Int) (n : Nat) : (memalloc junk n).length = n := by
  simp [memalloc]

theorem memset_all (d : List Int) (v : Int) (n : Nat) (h : d.length = n) :
    memset d 0 v n = some (List.replicate n (to_uint8 v)) := by
  subst h
  simp [memset]


theorem create_channel_same_size (junk : Nat → Int) (b : VoxelBuffer) (c : Nat) (dv : Int)
    (h : c < b.channels.length) :
    create_channel junk b c b.size dv =
      Outcome.ok (set_chan b c
        { data := some (List.replicate (get_volume b) (to_uint8 dv)),
          defval := (chan b c).defval }) := by
  unfold create_channel create_channel_noinit
  simp only [chan_set_chan_self _ _ _ h, Option.some_bind, set_chan_volume]
  rw [memset_all _ _ _ (by simp [memalloc_length, get_volume])]
  simp [set_chan_set_chan]

theorem get_voxel_unallocated (b : VoxelBuffer) (x y z : Int) (c : Nat) (hc : c < MAX_CHANNELS)
    (hd : (chan b c).data = none) : get_voxel b x y z c = Outcome.ok (chan b c).defval := by
  unfold get_voxel
  simp only [hc, not_true_eq_false, if_false, hd]
  split <;> simp_all

theorem get_voxel_outside (b : VoxelBuffer) (x y z : Int) (c : Nat) (hc : c < MAX_CHANNELS)
    (hv : validate_pos b (x + (b.margin_start + b.margin_end))
      (y + (b.margin_start + b.margin_end)) (z + (b.margin_start + b.margin_end)) = false) :
    get_voxel b x y z c = Outcome.ok (chan b c).defval := by
  unfold get_voxel
  simp only [hc, not_true_eq_false, if_false, hv]

theorem get_voxel_inside (b : VoxelBuffer) (x y z : Int) (c : Nat) (hc : c < MAX_CHANNELS)
    (d : List Int) (hd : (chan b c).data = some d)
    (hv : validate_pos b (x + (b.margin_start + b.margin_end))
      (y + (b.margin_start + b.margin_end)) (z + (b.margin_start + b.margin_end)) = true) :
    get_voxel b x y z c =
      Outcome.ofMem (d[index b (x + (b.margin_start + b.margin_end))
        (y + (b.margin_start + b.margin_end)) (z + (b.margin_start + b.margin_end))]?)
        Outcome.ok := by
  unfold get_voxel
  simp only [hc, not_true_eq_false, if_false, hv, hd]

/-- C9: a call of `create` in which some base dimension is not positive returns without
changing anything: size, margins and every channel are as before. -/
theorem create_nonpositive_noop (junk : Nat → Int) (b : VoxelBuffer)
    (sx sy sz margin_start margin_end : Int) (h : sx ≤ 0 ∨ sy ≤ 0 ∨ sz ≤ 0) :
    create junk b sx sy sz margin_start margin_end = Outcome.ok b := by
  unfold create
  rw [if_pos h]

/-- C10: with `m = margin_start + margin_end`, `get_voxel(x,y,z,c)` returns the default of
the channel when the channel is unallocated or `(x+m, y+m, z+m)` is not a valid position,
and otherwise returns the byte stored at `index(x+m, y+m, z+m)`, which lies inside the
array. -/
theorem get_voxel_contract (b : VoxelBuffer) (hwf : WF b) (x y z : Int) (c : Nat)
    (hc : c < MAX_CHANNELS) :
    (((chan b c).data = none ∨
        validate_pos b (x + (b.margin_start + b.margin_end))
          (y + (b.margin_start + b.margin_end)) (z + (b.margin_start + b.margin_end)) = false) →
      get_voxel b x y z c = Outcome.ok (chan b c).defval) ∧
    (∀ d, (chan b c).data = some d →
      validate_pos b (x + (b.margin_start + b.margin_end))
          (y + (b.margin_start + b.margin_end)) (z + (b.margin_start + b.margin_end)) = true →
      ∃ v, d[index b (x + (b.margin_start + b.margin_end))
          (y + (b.margin_start + b.margin_end)) (z + (b.margin_start + b.margin_end))]? = some v ∧
        get_voxel b x y z c = Outcome.ok v) := by
  constructor
  · rintro (h | h)
    · exact get_voxel_unallocated b x y z c hc h
    · exact get_voxel_outside b x y z c hc h
  · intro d hd hv
    have hlt := index_lt_volume b _ _ _ hv
    rw [← hwf.data_length c hc d hd] at hlt
    refine ⟨d[index b (x + (b.margin_start + b.margin_end))
      (y + (b.margin_start + b.margin_end)) (z + (b.margin_start + b.margin_end))], ?_, ?_⟩
    · exact List.getElem?_eq_getElem hlt
    · rw [get_voxel_inside b x y z c hc d hd hv, List.getElem?_eq_getElem hlt]
      rfl

/-- C1: on a well-formed buffer, for a channel `c < 10`, a byte value `v` and a position
whose offset position is valid, `set_voxel(v,x,y,z,c)` returns normally and `get_voxel`
called right after it at the same position returns `v`, whether the channel was allocated
or not. -/
theorem get_voxel_set_voxel (junk : Nat → Int) (b : VoxelBuffer) (hwf : WF b)
    (v x y z : Int) (c : Nat) (hc : c < MAX_CHANNELS) (hv : 0 ≤ v ∧ v ≤ 255)
    (hin : validate_pos b (x + (b.margin_start + b.margin_end))
      (y + (b.margin_start + b.margin_end)) (z + (b.margin_start + b.margin_end)) = true) :
    ∃ b', set_voxel junk b v x y z c = Outcome.ok b' ∧ get_voxel b' x y z c = Outcome.ok v := by
  have hlen : c < b.channels.length := by rw [hwf.1]; exact hc
  have hidx := index_lt_volume b _ _ _ hin
  have hbyte : to_uint8 v = v := to_uint8_of_byte v ⟨hv.1, by omega⟩
  unfold set_voxel
  simp only [hc, not_true_eq_false, if_false, hin]
  cases hd : (chan b c).data with
  | none =>
    by_cases hdef : (chan b c).defval = v
    · refine ⟨b, by simp [hdef], ?_⟩
      rw [get_voxel_unallocated b x y z c hc hd, hdef]
    · simp only [ne_eq, hdef, not_false_eq_true, if_true, create_channel_same_size junk b c _ hlen,
        next_ok, chan_set_chan_self _ _ _ hlen, Option.some_bind, set_chan_index, store,
        List.length_replicate, hidx, ofMem_some, set_chan_set_chan]
      refine ⟨_, rfl, ?_⟩
      rw [get_voxel_inside _ x y z c hc _ (by rw [chan_set_chan_self _ _ _ hlen]) (by simpa using hin)]
      simp [List.getElem?_set, hidx, hbyte]
  | some d =>
    have hdl : index b (x + (b.margin_start + b.margin_end))
        (y + (b.margin_start + b.margin_end)) (z + (b.margin_start + b.margin_end)) < d.length := by
      rw [hwf.data_length c hc d hd]; exact hidx
    simp only [store, hdl, if_true, ofMem_some]
    refine ⟨_, rfl, ?_⟩
    rw [get_voxel_inside _ x y z c hc _ (by rw [chan_set_chan_self _ _ _ hlen]) (by simpa using hin)]
    simp [List.getElem?_set, hdl, hbyte]


/-! ## `is_uniform` and `compress_uniform_channels` -/

theorem chan_data_some_lt (b : VoxelBuffer) (i : Nat) (d : List Int)
    (h : (chan b i).data = some d) : i < b.channels.length := by
  by_contra hlt
  have : chan b i = { data := none, defval := 0 } := by
    simp [chan, List.getD_eq_getElem?_getD, List.getElem?_eq_none (Nat.le_of_not_lt hlt)]
  rw [this] at h
  cases h

theorem clear_channel_eq (b : VoxelBuffer) (i : Nat) (v : Int) (hi : i < MAX_CHANNELS) :
    clear_channel b i v = Outcome.ok (set_chan b i { data := none, defval := to_uint8 v }) := by
  unfold clear_channel
  simp only [hi, not_true_eq_false, if_false]
  cases hd : (chan b i).data with
  | none =>
    simp only [next_ok]
    congr 2
    cases hch : chan b i with
    | mk dt dv => rw [hch] at hd; simp_all
  | some d =>
    have hlt := chan_data_some_lt b i d hd
    simp [delete_channel, hd, chan_set_chan_self _ _ _ hlt, set_chan_set_chan]

theorem scan_not_failed (d : List Int) (v : Int) (u : Bool) :
    ∀ n i, is_uniform_scan d v i n ≠ Outcome.failed u := by
  intro n
  induction n with
  | zero => intro i h; simp [is_uniform_scan] at h
  | succ n ih =>
    intro i h
    unfold is_uniform_scan at h
    cases hk : d[i]? with
    | none => simp [hk] at h
    | some w =>
      simp only [hk, ofMem_some] at h
      by_cases hw : w = v
      · simp only [hw, ne_eq, not_true_eq_false, if_false] at h
        exact ih (i + 1) h
      · simp [hw] at h

theorem scan_total (d : List Int) (v : Int) :
    ∀ n i, i + n ≤ d.length → ∃ u, is_uniform_scan d v i n = Outcome.ok u := by
  intro n
  induction n with
  | zero => intro i _; exact ⟨true, rfl⟩
  | succ n ih =>
    intro i h
    unfold is_uniform_scan
    have hi : i < d.length := by omega
    simp only [List.getElem?_eq_getElem hi, ofMem_some]
    by_cases hw : d[i] = v
    · simp only [hw, ne_eq, not_true_eq_false, if_false]
      exact ih (i + 1) (by omega)
    · exact ⟨false, by simp [hw]⟩

theorem scan_true (d : List Int) (v : Int) :
    ∀ n i, is_uniform_scan d v i n = Outcome.ok true →
      ∀ k, i ≤ k → k < i + n → d[k]? = some v := by
  intro n
  induction n with
  | zero => intro i _ k h1 h2; omega
  | succ n ih =>
    intro i h k h1 h2
    unfold is_uniform_scan at h
    cases hk : d[i]? with
    | none => simp [hk] at h
    | some w =>
      simp only [hk, ofMem_some] at h
      by_cases hw : w = v
      · simp only [hw, ne_eq, not_true_eq_false, if_false] at h
        by_cases hik : k = i
        · rw [hik, hk, hw]
        · exact ih (i + 1) h k (by omega) (by omega)
      · simp [hw] at h

theorem scan_replicate (m : Nat) (v : Int) :
    ∀ n i, i + n ≤ m → is_uniform_scan (List.replicate m v) v i n = Outcome.ok true := by
  intro n
  induction n with
  | zero => intro i _; rfl
  | succ n ih =>
    intro i h
    unfold is_uniform_scan
    have hi : i < m := by omega
    simp only [List.getElem?_replicate, hi, if_true, ofMem_some, ne_eq, not_true_eq_false,
      if_false]
    exact ih (i + 1) (by omega)

theorem is_uniform_congr (b1 b2 : VoxelBuffer) (c : Nat) (hch : chan b1 c = chan b2 c)
    (hs : b1.size = b2.size) : is_uniform b1 c = is_uniform b2 c := by
  unfold is_uniform get_volume
  rw [hch, hs]

theorem is_uniform_unallocated (b : VoxelBuffer) (c : Nat) (hc : c < MAX_CHANNELS)
    (hd : (chan b c).data = none) : is_uniform b c = Outcome.ok true := by
  unfold is_uniform
  simp [hc, hd]

theorem get_voxel_congr (b1 b2 : VoxelBuffer) (x y z : Int) (c : Nat)
    (hch : chan b1 c = chan b2 c) (hs : b1.size = b2.size)
    (hms : b1.margin_start = b2.margin_start) (hme : b1.margin_end = b2.margin_end) :
    get_voxel b1 x y z c = get_voxel b2 x y z c := by
  unfold get_voxel validate_pos index
  rw [hch, hs, hms, hme]

/-- What one pass of the loop body of `compress_uniform_channels` does to channel `i`:
it crashes, or leaves the buffer as it is (channel unallocated or not uniform), or
replaces an allocated uniform channel by the unallocated channel whose default is the
first byte. -/
theorem compress_step_cases (b : VoxelBuffer) (i : Nat) (hi : i < MAX_CHANNELS) :
    compress_step b i = Outcome.crash ∨
    (compress_step b i = Outcome.ok b ∧
      ((chan b i).data = none ∨ is_uniform b i = Outcome.ok false)) ∨
    (∃ d v, (chan b i).data = some d ∧ d[0]? = some v ∧ is_uniform b i = Outcome.ok true ∧
      compress_step b i = Outcome.ok (set_chan b i { data := none, defval := to_uint8 v })) := by
  unfold compress_step
  cases hd : (chan b i).data with
  | none => exact Or.inr (Or.inl ⟨rfl, Or.inl rfl⟩)
  | some d =>
    have hu : is_uniform b i =
        Outcome.ofMem (d[0]?) (fun voxel => is_uniform_scan d voxel 1 (get_volume b - 1)) := by
      unfold is_uniform
      simp [hi, hd]
    cases h0 : d[0]? with
    | none =>
      left
      simp [hu, h0]
    | some v =>
      rw [h0] at hu
      simp only [ofMem_some] at hu
      cases hs : is_uniform_scan d v 1 (get_volume b - 1) with
      | crash =>
        left
        simp [hu, hs]
      | failed u => exact absurd hs (scan_not_failed d v u _ _)
      | ok u =>
        cases u with
        | false =>
          right; left
          simp [hu, hs]
        | true =>
          right; right
          refine ⟨d, v, rfl, h0, by rw [hu, hs], ?_⟩
          simp [hu, hs, h0, clear_channel_eq b i v hi]

theorem wf_set_chan (b : VoxelBuffer) (i : Nat) (ch : Channel) (h : WF b)
    (hch : wf_channel (get_volume b) ch) : WF (set_chan b i ch) := by
  refine ⟨by rw [set_chan_length]; exact h.1, h.2.1, h.2.2.1, h.2.2.2.1, ?_⟩
  intro c hc
  rw [set_chan_volume]
  rcases List.mem_or_eq_of_mem_set hc with hm | he
  · exact h.2.2.2.2 c hm
  · rw [he]; exact hch

theorem is_byte_to_uint8 (v : Int) : is_byte (to_uint8 v) := by
  unfold is_byte to_uint8
  omega

theorem compress_step_total (b : VoxelBuffer) (i : Nat) (hi : i < MAX_CHANNELS) (h : WF b) :
    ∃ b1, compress_step b i = Outcome.ok b1 ∧ WF b1 := by
  rcases compress_step_cases b i hi with hcr | ⟨hok, _⟩ | ⟨d, v, _, _, _, hok⟩
  · exfalso
    unfold compress_step at hcr
    cases hd : (chan b i).data with
    | none => simp [hd] at hcr
    | some d =>
      have hne := h.data_ne_nil i hi d hd
      have hl := h.data_length i hi d hd
      obtain ⟨v, hv⟩ : ∃ v, d[0]? = some v := by
        cases d with
        | nil => exact absurd rfl hne
        | cons a t => exact ⟨a, by simp⟩
      have hpos : 0 < d.length := by
        cases d with
        | nil => exact absurd rfl hne
        | cons a t => simp
      obtain ⟨u, hu⟩ := scan_total d v (get_volume b - 1) 1 (by omega)
      have hun : is_uniform b i = Outcome.ok u := by
        unfold is_uniform
        simp [hi, hd, hv, hu]
      simp only [hd, hun, next_ok, hv, ofMem_some, clear_channel_eq b i v hi] at hcr
      cases u <;> simp at hcr
  · exact ⟨b, hok, h⟩
  · exact ⟨_, hok, wf_set_chan b i _ h ⟨is_byte_to_uint8 v, trivial⟩⟩


theorem compress_step_stable (b : VoxelBuffer) (j : Nat)
    (h : (chan b j).data = none ∨ is_uniform b j = Outcome.ok false) :
    compress_step b j = Outcome.ok b := by
  unfold compress_step
  cases hd : (chan b j).data with
  | none => rfl
  | some d =>
    rcases h with h | h
    · rw [hd] at h; cases h
    · simp [h]

theorem compress_loop_fixed (b : VoxelBuffer) :
    ∀ n i, (∀ j, i ≤ j → j < i + n → compress_step b j = Outcome.ok b) →
      compress_loop i n b = Outcome.ok b := by
  intro n
  induction n with
  | zero => intro i _; rfl
  | succ n ih =>
    intro i h
    unfold compress_loop
    rw [h i (Nat.le_refl i) (by omega), next_ok]
    exact ih (i + 1) (fun j h1 h2 => h j (by omega) (by omega))

/-- Effect of the loop of `compress_uniform_channels` over the channels `i, ..., i+n-1`:
size, margins and the other channels are kept; each channel of the range is either kept
(it was unallocated or not uniform) or, when it was allocated and uniform, replaced by
the unallocated channel whose default is its first byte. -/
theorem compress_loop_spec :
    ∀ n i b b1, i + n ≤ MAX_CHANNELS → compress_loop i n b = Outcome.ok b1 →
      b1.size = b.size ∧ b1.margin_start = b.margin_start ∧ b1.margin_end = b.margin_end ∧
      b1.channels.length = b.channels.length ∧
      (∀ j, (j < i ∨ i + n ≤ j) → chan b1 j = chan b j) ∧
      (∀ j, i ≤ j → j < i + n →
        (chan b1 j = chan b j ∧
          ((chan b j).data = none ∨ is_uniform b j = Outcome.ok false)) ∨
        (∃ d v, (chan b j).data = some d ∧ d[0]? = some v ∧
          is_uniform b j = Outcome.ok true ∧
          chan b1 j = { data := none, defval := to_uint8 v })) := by
  intro n
  induction n with
  | zero =>
    intro i b b1 _ h
    simp only [compress_loop, Outcome.ok.injEq] at h
    subst h
    exact ⟨rfl, rfl, rfl, rfl, fun _ _ => rfl, fun j h1 h2 => by omega⟩
  | succ n ih =>
    intro i b b1 hin h
    have hi : i < MAX_CHANNELS := by omega
    unfold compress_loop at h
    rcases compress_step_cases b i hi with hcr | ⟨hok, hst⟩ | ⟨d, v, hd, h0, hun, hok⟩
    · rw [hcr] at h; cases h
    · rw [hok, next_ok] at h
      obtain ⟨hs, hms, hme, hl, hfr, hin2⟩ := ih (i + 1) b b1 (by omega) h
      refine ⟨hs, hms, hme, hl, fun j hj => hfr j (by omega), ?_⟩
      intro j h1 h2
      by_cases hji : j = i
      · subst hji
        exact Or.inl ⟨hfr j (by omega), hst⟩
      · exact hin2 j (by omega) (by omega)
    · rw [hok, next_ok] at h
      have hlt := chan_data_some_lt b i d hd
      obtain ⟨hs, hms, hme, hl, hfr, hin2⟩ := ih (i + 1) _ b1 (by omega) h
      refine ⟨hs, hms, hme, by rw [hl, set_chan_length], ?_, ?_⟩
      · intro j hj
        rw [hfr j (by omega), chan_set_chan_ne _ _ _ _ (by omega)]
      · intro j h1 h2
        by_cases hji : j = i
        · subst hji
          right
          refine ⟨d, v, hd, h0, hun, ?_⟩
          rw [hfr j (by omega), chan_set_chan_self _ _ _ hlt]
        · have hne : i ≠ j := fun e => hji e.symm
          have hch := chan_set_chan_ne b i j { data := none, defval := to_uint8 v } hne
          have hu := is_uniform_congr _ b j hch (set_chan_size b i _)
          have := hin2 j (by omega) (by omega)
          rw [hch, hu] at this
          exact this

theorem compress_loop_total :
    ∀ n i b, i + n ≤ MAX_CHANNELS → WF b →
      ∃ b1, compress_loop i n b = Outcome.ok b1 ∧ WF b1 := by
  intro n
  induction n with
  | zero => intro i b _ h; exact ⟨b, rfl, h⟩
  | succ n ih =>
    intro i b hin h
    obtain ⟨b1, h1, hwf1⟩ := compress_step_total b i (by omega) h
    obtain ⟨b2, h2, hwf2⟩ := ih (i + 1) b1 (by omega) hwf1
    refine ⟨b2, ?_, hwf2⟩
    unfold compress_loop
    rw [h1, next_ok, h2]

/-- C5: on a well-formed buffer `compress_uniform_channels` returns normally, and calling
it a second time returns the very same buffer state (allocation state, contents and
default of every channel, size and margins). -/
theorem compress_uniform_channels_idempotent (b : VoxelBuffer) (hwf : WF b) :
    ∃ b1, compress_uniform_channels b = Outcome.ok b1 ∧
      compress_uniform_channels b1 = Outcome.ok b1 := by
  unfold compress_uniform_channels
  obtain ⟨b1, h1, _⟩ := compress_loop_total MAX_CHANNELS 0 b (by omega) hwf
  refine ⟨b1, h1, ?_⟩
  obtain ⟨hs, _, _, _, _, hin⟩ := compress_loop_spec MAX_CHANNELS 0 b b1 (by omega) h1
  apply compress_loop_fixed
  intro j hj1 hj2
  apply compress_step_stable
  rcases hin j hj1 hj2 with ⟨hch, hst⟩ | ⟨d, v, _, _, _, hch⟩
  · rw [hch, is_uniform_congr b1 b j hch hs]
    exact hst
  · left
    rw [hch]


/-! ## `fill`, `create` and `clear_channel` -/

theorem chan_data_none_of_all_unallocated (b : VoxelBuffer) (h : all_unallocated b) (i : Nat) :
    (chan b i).data = none := by
  cases hd : (chan b i).data with
  | none => rfl
  | some d =>
    have hlt := chan_data_some_lt b i d hd
    rw [h _ (chan_mem b i hlt)] at hd
    cases hd

theorem create_loop_unallocated (junk : Nat → Int) (new_size : Vector3i) (b : VoxelBuffer)
    (h : all_unallocated b) : ∀ n i, create_loop junk new_size i n b = Outcome.ok b := by
  intro n
  induction n with
  | zero => intro i; rfl
  | succ n ih =>
    intro i
    unfold create_loop
    rw [chan_data_none_of_all_unallocated b h i]
    simp only [next_ok]
    exact ih (i + 1)

/-- A call of `create` that reallocates nothing (no channel is allocated, or the total
size is the current one, or a base dimension is not positive) returns normally and keeps
the channels as they are. -/
theorem create_keeps_channels (junk : Nat → Int) (b : VoxelBuffer)
    (sx sy sz margin_start margin_end : Int)
    (h : all_unallocated b ∨
      total_size sx sy sz margin_start margin_end = b.size ∨
      (sx ≤ 0 ∨ sy ≤ 0 ∨ sz ≤ 0)) :
    ∃ b1, create junk b sx sy sz margin_start margin_end = Outcome.ok b1 ∧
      b1.channels = b.channels := by
  unfold create
  by_cases hdim : sx ≤ 0 ∨ sy ≤ 0 ∨ sz ≤ 0
  · exact ⟨b, by rw [if_pos hdim], rfl⟩
  · rw [if_neg hdim]
    by_cases hsz : total_size sx sy sz margin_start margin_end = b.size
    · simp only [ne_eq, hsz, not_true_eq_false, if_false, next_ok]
      exact ⟨_, rfl, rfl⟩
    · rcases h with h | h | h
      · simp only [ne_eq, hsz, not_false_eq_true, if_true, create_loop_unallocated junk _ b h,
          next_ok]
        exact ⟨_, rfl, rfl⟩
      · exact absurd h hsz
      · exact absurd h hdim


theorem is_uniform_true_elems (b : VoxelBuffer) (c : Nat) (hc : c < MAX_CHANNELS)
    (d : List Int) (v : Int) (hd : (chan b c).data = some d) (h0 : d[0]? = some v)
    (hu : is_uniform b c = Outcome.ok true) :
    ∀ k, k < get_volume b → d[k]? = some v := by
  intro k hk
  unfold is_uniform at hu
  simp only [hc, not_true_eq_false, if_false, hd, h0, ofMem_some] at hu
  by_cases hk0 : k = 0
  · rw [hk0]; exact h0
  · exact scan_true d v _ 1 hu k (by omega) (by omega)

/-- C4 (amended): on a well-formed buffer `compress_uniform_channels` returns normally, and
`get_voxel(x,y,z,c)` returns the same value after it as before at every position whose
offset position is valid, and at every position at all when channel `c` is unallocated or
not uniform. -/
theorem get_voxel_compress_uniform_channels (b : VoxelBuffer) (hwf : WF b) (x y z : Int)
    (c : Nat) (hc : c < MAX_CHANNELS)
    (h : validate_pos b (x + (b.margin_start + b.margin_end))
        (y + (b.margin_start + b.margin_end)) (z + (b.margin_start + b.margin_end)) = true ∨
      (chan b c).data = none ∨ is_uniform b c = Outcome.ok false) :
    ∃ b1, compress_uniform_channels b = Outcome.ok b1 ∧
      get_voxel b1 x y z c = get_voxel b x y z c := by
  unfold compress_uniform_channels
  obtain ⟨b1, h1, _⟩ := compress_loop_total MAX_CHANNELS 0 b (by omega) hwf
  refine ⟨b1, h1, ?_⟩
  obtain ⟨hs, hms, hme, _, _, hin⟩ := compress_loop_spec MAX_CHANNELS 0 b b1 (by omega) h1
  rcases hin c (Nat.zero_le c) (by omega) with ⟨hch, _⟩ | ⟨d, v, hd, h0, hun, hch⟩
  · exact get_voxel_congr b1 b x y z c hch hs hms hme
  · rcases h with h | h | h
    · have hidx := index_lt_volume b _ _ _ h
      have hv := is_uniform_true_elems b c hc d v hd h0 hun _ hidx
      have hbyte : to_uint8 v = v :=
        to_uint8_of_byte v (hwf.data_byte c hc d hd v (List.getElem?_mem h0))
      rw [get_voxel_unallocated b1 x y z c hc (by rw [hch]), hch,
        get_voxel_inside b x y z c hc d hd h, hv]
      simp [hbyte]
    · rw [hd] at h; cases h
    · rw [hun] at h; cases h

/-- C6 (amended): on a well-formed buffer, for a channel `c < 10` and a byte value `v`,
`fill(v, c)` returns normally, `is_uniform(c)` is true afterwards, and `get_voxel(x,y,z,c)`
returns `v` at every position whose offset position is valid, and at every position at all
when the channel was unallocated. -/
theorem fill_uniform (junk : Nat → Int) (b : VoxelBuffer) (hwf : WF b) (v : Int) (c : Nat)
    (hc : c < MAX_CHANNELS) (hv : 0 ≤ v ∧ v ≤ 255) :
    ∃ b1, fill junk b v c = Outcome.ok b1 ∧ is_uniform b1 c = Outcome.ok true ∧
      ∀ x y z : Int,
        (validate_pos b (x + (b.margin_start + b.margin_end))
            (y + (b.margin_start + b.margin_end)) (z + (b.margin_start + b.margin_end)) = true ∨
          (chan b c).data = none) →
        get_voxel b1 x y z c = Outcome.ok v := by
  have hlen : c < b.channels.length := by rw [hwf.1]; exact hc
  have hbyte : to_uint8 v = v := to_uint8_of_byte v ⟨hv.1, by omega⟩
  unfold fill
  simp only [hc, not_true_eq_false, if_false]
  cases hd : (chan b c).data with
  | none =>
    by_cases hdef : (chan b c).defval = v
    · simp only [hdef, if_true]
      refine ⟨b, rfl, is_uniform_unallocated b c hc hd, ?_⟩
      intro x y z _
      rw [get_voxel_unallocated b x y z c hc hd, hdef]
    · simp only [hdef, if_false]
      have hnone : (chan (set_chan b c { data := none, defval := to_uint8 v }) c).data = none := by
        rw [chan_set_chan_self _ _ _ hlen]
      refine ⟨_, rfl, is_uniform_unallocated _ c hc hnone, ?_⟩
      intro x y z _
      rw [get_voxel_unallocated _ x y z c hc hnone, chan_set_chan_self _ _ _ hlen]
      exact congrArg Outcome.ok hbyte
  | some d =>
    have hvol : 0 < get_volume b := by
      have hne := hwf.data_ne_nil c hc d hd
      have hl := hwf.data_length c hc d hd
      cases d with
      | nil => exact absurd rfl hne
      | cons a t => rw [← hl]; simp
    simp only [create_channel_noinit, chan_set_chan_self _ _ _ hlen, Option.some_bind,
      set_chan_volume, set_chan_set_chan]
    rw [memset_all _ _ _ (by simp [memalloc_length, get_volume])]
    simp only [ofMem_some, hbyte]
    have hdata : (chan (set_chan b c
        { data := some (List.replicate (get_volume b) v), defval := (chan b c).defval }) c).data =
        some (List.replicate (get_volume b) v) := by
      rw [chan_set_chan_self _ _ _ hlen]
    refine ⟨_, rfl, ?_, ?_⟩
    · unfold is_uniform
      simp only [hc, not_true_eq_false, if_false, hdata, List.getElem?_replicate, hvol, if_true,
        ofMem_some, set_chan_volume]
      exact scan_replicate _ v _ 1 (by omega)
    · intro x y z h
      rcases h with h | h
      · have hidx := index_lt_volume b _ _ _ h
        rw [get_voxel_inside _ x y z c hc _ hdata (by simpa using h)]
        simp [List.getElem?_replicate, hidx]
      · cases h

/-! ## Evaluations at concrete states -/

/-- C1, at a concrete state: writing `9` at `(1,1,1)` of channel `3` of a fresh `2x2x2`
buffer and reading it back. -/
theorem get_voxel_set_voxel_witness :
    WF (blank 2 2 2) ∧
    ∃ b1, set_voxel stale_mem (blank 2 2 2) 9 1 1 1 3 = Outcome.ok b1 ∧
      get_voxel b1 1 1 1 3 = Outcome.ok 9 :=
  ⟨by decide,
    get_voxel_set_voxel stale_mem (blank 2 2 2) (by decide) 9 1 1 1 3 (by decide) (by decide)
      (by decide)⟩

/-- C2: evaluation of the whole-buffer `copy_from` on buffers of different sizes. The
destination is a fresh `1x1x1` buffer; from the `2x1x1` source with allocated channel `0`
the call allocates the destination channel and copies one byte, and from the `2x1x1` source
with unallocated channel `0` of default `7` it takes over the default. In both cases the
call returns normally and the destination has changed. -/
theorem copy_from_different_size_copies :
    (blank 1 1 1).size ≠ sample_pair.size ∧
    copy_from stale_mem (blank 1 1 1) sample_pair 0 =
      Outcome.ok (set_chan (blank 1 1 1) 0 { data := some [1], defval := 0 }) ∧
    copy_from stale_mem (blank 1 1 1) sample_flat 0 =
      Outcome.ok (set_chan (blank 1 1 1) 0 { data := none, defval := 7 }) := by
  decide

/-- C3: evaluation of the whole-buffer `copy_from` on buffers of equal size `2x1x1`. The
call fails and leaves the destination as it was, so the destination channel does not match
the source channel, neither for an allocated nor for an unallocated source. -/
theorem copy_from_equal_size_fails :
    (blank 2 1 1).size = sample_pair.size ∧
    copy_from stale_mem (blank 2 1 1) sample_pair 0 = Outcome.failed (blank 2 1 1) ∧
    chan (blank 2 1 1) 0 ≠ chan sample_pair 0 ∧
    copy_from stale_mem (blank 2 1 1) sample_flat 0 = Outcome.failed (blank 2 1 1) ∧
    chan (blank 2 1 1) 0 ≠ chan sample_flat 0 := by
  decide

/-- C4, counterexample: channel `0` of `sample_unit` is allocated and uniform with byte `5`
and default `0`; at the out-of-bounds position `(1,0,0)` `get_voxel` returns `0` before
`compress_uniform_channels` and `5` after it. -/
theorem compress_changes_value_outside :
    WF sample_unit ∧
    get_voxel sample_unit 1 0 0 0 = Outcome.ok 0 ∧
    compress_uniform_channels sample_unit =
      Outcome.ok (set_chan (blank 1 1 1) 0 { data := none, defval := 5 }) ∧
    get_voxel (set_chan (blank 1 1 1) 0 { data := none, defval := 5 }) 1 0 0 0 =
      Outcome.ok 5 := by
  decide

/-- C4 (amended), at a concrete state: the in-bounds position `(0,0,0)` of `sample_unit`. -/
theorem get_voxel_compress_uniform_channels_witness :
    ∃ b1, compress_uniform_channels sample_unit = Outcome.ok b1 ∧
      get_voxel b1 0 0 0 0 = get_voxel sample_unit 0 0 0 0 :=
  get_voxel_compress_uniform_channels sample_unit (by decide) 0 0 0 0 (by decide)
    (Or.inl (by decide))

/-- C5, at a concrete state: `sample_unit`, whose channel `0` is compressed by the first
call. -/
theorem compress_uniform_channels_idempotent_witness :
    WF sample_unit ∧
    ∃ b1, compress_uniform_channels sample_unit = Outcome.ok b1 ∧
      compress_uniform_channels b1 = Outcome.ok b1 :=
  ⟨by decide, compress_uniform_channels_idempotent sample_unit (by decide)⟩

/-- C6, counterexample: after `fill(3, 0)` on `sample_unit`, whose channel `0` is allocated
with default `0`, `get_voxel` at the out-of-bounds position `(1,0,0)` returns the default
`0`, not `3`. -/
theorem fill_keeps_default_outside :
    WF sample_unit ∧
    fill zero_mem sample_unit 3 0 =
      Outcome.ok (set_chan (blank 1 1 1) 0 { data := some [3], defval := 0 }) ∧
    get_voxel (set_chan (blank 1 1 1) 0 { data := some [3], defval := 0 }) 1 0 0 0 =
      Outcome.ok 0 := by
  decide

/-- C6 (amended), at a concrete state: `fill(3, 0)` on `sample_pair`. -/
theorem fill_uniform_witness :
    WF sample_pair ∧
    ∃ b1, fill stale_mem sample_pair 3 0 = Outcome.ok b1 ∧ is_uniform b1 0 = Outcome.ok true ∧
      ∀ x y z : Int,
        (validate_pos sample_pair (x + (sample_pair.margin_start + sample_pair.margin_end))
            (y + (sample_pair.margin_start + sample_pair.margin_end))
            (z + (sample_pair.margin_start + sample_pair.margin_end)) = true ∨
          (chan sample_pair 0).data = none) →
        get_voxel b1 x y z 0 = Outcome.ok 3 :=
  ⟨by decide, fill_uniform stale_mem sample_pair (by decide) 3 0 (by decide) (by decide)⟩

/-- C8: evaluation of `create` at a change of size with an allocated channel. Growing
`sample_unit` from `1x1x1` to `2x1x1` over stale memory sets only the first byte of the new
array of channel `0` to the default `0` and leaves the stale byte `7` in the second;
shrinking `sample_pair` from `2x1x1` to `1x1x1` writes two bytes into the new array of one
byte. -/
theorem create_resize_leaves_stale_bytes :
    create stale_mem sample_unit 2 1 1 0 0 =
      Outcome.ok (set_chan (blank 2 1 1) 0 { data := some [0, 7], defval := 0 }) ∧
    create stale_mem sample_pair 1 1 1 0 0 = Outcome.crash := by
  decide

/-- C9, at a concrete state: `create(0,4,4,1,1)` on `sample_pair`. -/
theorem create_nonpositive_noop_witness :
    create stale_mem sample_pair 0 4 4 1 1 = Outcome.ok sample_pair :=
  create_nonpositive_noop stale_mem sample_pair 0 4 4 1 1 (Or.inl (by decide))

/-- C10, at a concrete state: in `sample_margin` both margins are `1`, and
`get_voxel(0,0,0,1)` reads the byte at `index(2,2,2) = 26`. -/
theorem get_voxel_contract_witness :
    WF sample_margin ∧ index sample_margin 2 2 2 = 26 ∧
    ∃ v, ((List.range 27).map (fun k => (k : Int)))[index sample_margin
        (0 + (sample_margin.margin_start + sample_margin.margin_end))
        (0 + (sample_margin.margin_start + sample_margin.margin_end))
        (0 + (sample_margin.margin_start + sample_margin.margin_end))]? = some v ∧
      get_voxel sample_margin 0 0 0 1 = Outcome.ok v :=
  ⟨by decide, by decide,
    (get_voxel_contract sample_margin (by decide) 0 0 0 1 (by decide)).2 _ (by decide)
      (by decide)⟩


/-! ## `set_voxel` and `try_set_voxel` -/

theorem index_nonneg_of_valid (b : VoxelBuffer) (x y z : Int) (h : validate_pos b x y z = true) :
    0 ≤ y + b.size.y * (x + b.size.x * z) := by
  simp only [validate_pos, decide_eq_true_eq] at h
  obtain ⟨hx0, hx, hy0, hy, hz0, hz⟩ := h
  have h3 : 0 ≤ b.size.y * (x + b.size.x * z) :=
    Int.mul_nonneg (by omega) (Int.add_nonneg hx0 (Int.mul_nonneg (by omega) hz0))
  omega

theorem euclid_unique (n a1 q1 a2 q2 : Int) (h1 : 0 ≤ a1) (h1n : a1 < n) (h2 : 0 ≤ a2)
    (h2n : a2 < n) (h : a1 + n * q1 = a2 + n * q2) : a1 = a2 ∧ q1 = q2 := by
  have hq : q1 = q2 := by
    rcases Int.lt_trichotomy q1 q2 with hlt | heq | hgt
    · exfalso
      have : n * (q1 + 1) ≤ n * q2 := Int.mul_le_mul_of_nonneg_left (by omega) (by omega)
      have h3 : n * (q1 + 1) = n * q1 + n := by ring
      omega
    · exact heq
    · exfalso
      have : n * (q2 + 1) ≤ n * q1 := Int.mul_le_mul_of_nonneg_left (by omega) (by omega)
      have h3 : n * (q2 + 1) = n * q2 + n := by ring
      omega
  subst hq
  exact ⟨by omega, rfl⟩

/-- Two valid positions with the same index are the same position. -/
theorem index_injective (b : VoxelBuffer) (x1 y1 z1 x2 y2 z2 : Int)
    (h1 : validate_pos b x1 y1 z1 = true) (h2 : validate_pos b x2 y2 z2 = true)
    (h : index b x1 y1 z1 = index b x2 y2 z2) : x1 = x2 ∧ y1 = y2 ∧ z1 = z2 := by
  have hn1 := index_nonneg_of_valid b x1 y1 z1 h1
  have hn2 := index_nonneg_of_valid b x2 y2 z2 h2
  simp only [validate_pos, decide_eq_true_eq] at h1 h2
  obtain ⟨hx1, hx1s, hy1, hy1s, hz1, hz1s⟩ := h1
  obtain ⟨hx2, hx2s, hy2, hy2s, hz2, hz2s⟩ := h2
  unfold index at h
  have hi : y1 + b.size.y * (x1 + b.size.x * z1) = y2 + b.size.y * (x2 + b.size.x * z2) := by
    omega
  obtain ⟨hy, hq⟩ := euclid_unique b.size.y y1 _ y2 _ hy1 hy1s hy2 hy2s hi
  obtain ⟨hx, hz⟩ := euclid_unique b.size.x x1 z1 x2 z2 hx1 hx1s hx2 hx2s hq
  exact ⟨hx, hy, hz⟩

theorem set_voxel_outside (junk : Nat → Int) (b : VoxelBuffer) (v x y z : Int) (c : Nat)
    (hc : c < MAX_CHANNELS)
    (hout : validate_pos b (x + (b.margin_start + b.margin_end))
      (y + (b.margin_start + b.margin_end)) (z + (b.margin_start + b.margin_end)) = false) :
    set_voxel junk b v x y z c = Outcome.failed b := by
  unfold set_voxel
  simp [hc, hout]

theorem set_voxel_unallocated_same (junk : Nat → Int) (b : VoxelBuffer) (v x y z : Int) (c : Nat)
    (hc : c < MAX_CHANNELS)
    (hin : validate_pos b (x + (b.margin_start + b.margin_end))
      (y + (b.margin_start + b.margin_end)) (z + (b.margin_start + b.margin_end)) = true)
    (hd : (chan b c).data = none) (hv : (chan b c).defval = v) :
    set_voxel junk b v x y z c = Outcome.ok b := by
  unfold set_voxel
  simp [hc, hin, hd, hv]

theorem set_voxel_unallocated_other (junk : Nat → Int) (b : VoxelBuffer) (v x y z : Int) (c : Nat)
    (hc : c < MAX_CHANNELS) (hlen : c < b.channels.length)
    (hin : validate_pos b (x + (b.margin_start + b.margin_end))
      (y + (b.margin_start + b.margin_end)) (z + (b.margin_start + b.margin_end)) = true)
    (hd : (chan b c).data = none) (hv : (chan b c).defval ≠ v) :
    set_voxel junk b v x y z c =
      Outcome.ok (set_chan b c
        { data := some ((List.replicate (get_volume b) (to_uint8 (chan b c).defval)).set
            (index b (x + (b.margin_start + b.margin_end))
              (y + (b.margin_start + b.margin_end)) (z + (b.margin_start + b.margin_end)))
            (to_uint8 v)),
          defval := (chan b c).defval }) := by
  have hidx := index_lt_volume b _ _ _ hin
  unfold set_voxel
  simp only [hc, not_true_eq_false, if_false, hin, hd]
  simp only [ne_eq, hv, not_false_eq_true, if_true, create_channel_same_size junk b c _ hlen,
    next_ok, chan_set_chan_self _ _ _ hlen, Option.some_bind, set_chan_index, store,
    List.length_replicate, hidx, ofMem_some, set_chan_set_chan, set_chan_margin_start,
    set_chan_margin_end]

theorem set_voxel_allocated (junk : Nat → Int) (b : VoxelBuffer) (v x y z : Int) (c : Nat)
    (hc : c < MAX_CHANNELS)
    (hin : validate_pos b (x + (b.margin_start + b.margin_end))
      (y + (b.margin_start + b.margin_end)) (z + (b.margin_start + b.margin_end)) = true)
    (d : List Int) (hd : (chan b c).data = some d) (hl : d.length = get_volume b) :
    set_voxel junk b v x y z c =
      Outcome.ok (set_chan b c
        { data := some (d.set
            (index b (x + (b.margin_start + b.margin_end))
              (y + (b.margin_start + b.margin_end)) (z + (b.margin_start + b.margin_end)))
            (to_uint8 v)),
          defval := (chan b c).defval }) := by
  have hidx := index_lt_volume b _ _ _ hin
  rw [← hl] at hidx
  unfold set_voxel
  simp only [hc, not_true_eq_false, if_false, hin, hd, store, hidx, if_true, ofMem_some]

theorem try_set_voxel_inside (junk : Nat → Int) (b : VoxelBuffer) (v x y z : Int) (c : Nat)
    (hin : validate_pos b (x + (b.margin_start + b.margin_end))
      (y + (b.margin_start + b.margin_end)) (z + (b.margin_start + b.margin_end)) = true) :
    try_set_voxel junk b x y z v c = set_voxel junk b v x y z c := by
  unfold try_set_voxel set_voxel
  simp only [hin, not_true_eq_false, if_false]


theorem wf_channel_set (vol : Nat) (d : List Int) (dv : Int) (i : Nat) (w : Int)
    (h : wf_channel vol { data := some d, defval := dv }) (hw : is_byte w) :
    wf_channel vol { data := some (d.set i w), defval := dv } := by
  simp only [wf_channel] at h ⊢
  obtain ⟨h1, h2, h3, h4⟩ := h
  refine ⟨h1, by rw [List.length_set]; exact h2, ?_, ?_⟩
  · intro hnil
    have := congrArg List.length hnil
    rw [List.length_set] at this
    cases d with
    | nil => exact h3 rfl
    | cons a t => simp at this
  · intro u hu
    rcases List.mem_or_eq_of_mem_set hu with hm | he
    · exact h4 u hm
    · rw [he]; exact hw

theorem wf_channel_replicate (vol : Nat) (dv w : Int) (hvol : 0 < vol) (hdv : is_byte dv)
    (hw : is_byte w) : wf_channel vol { data := some (List.replicate vol w), defval := dv } := by
  simp only [wf_channel]
  refine ⟨hdv, List.length_replicate _ _, ?_, ?_⟩
  · intro hnil
    have := congrArg List.length hnil
    simp at this
    omega
  · intro u hu
    rw [List.eq_of_mem_replicate hu]; exact hw

theorem chan_eta (b : VoxelBuffer) (c : Nat) (d : Option (List Int))
    (hd : (chan b c).data = d) : chan b c = { data := d, defval := (chan b c).defval } := by
  cases hch : chan b c with
  | mk dt dv => rw [hch] at hd; simp_all

/-- Effect of `set_voxel` at a valid position of a well-formed buffer: the call returns
normally, the voxel reads back as the stored byte, and nothing else changes. -/
theorem set_voxel_effect (junk : Nat → Int) (b : VoxelBuffer) (hwf : WF b) (v x y z : Int)
    (c : Nat) (hc : c < MAX_CHANNELS)
    (hin : validate_pos b (x + (b.margin_start + b.margin_end))
      (y + (b.margin_start + b.margin_end)) (z + (b.margin_start + b.margin_end)) = true) :
    ∃ b1, set_voxel junk b v x y z c = Outcome.ok b1 ∧ WF b1 ∧ b1.size = b.size ∧
      b1.margin_start = b.margin_start ∧ b1.margin_end = b.margin_end ∧
      (∀ c1, c1 ≠ c → chan b1 c1 = chan b c1) ∧
      get_voxel b1 x y z c = Outcome.ok (to_uint8 v) ∧
      (∀ x1 y1 z1 : Int, ¬ (x1 = x ∧ y1 = y ∧ z1 = z) →
        get_voxel b1 x1 y1 z1 c = get_voxel b x1 y1 z1 c) := by
  have hlen : c < b.channels.length := by rw [hwf.1]; exact hc
  have hidx := index_lt_volume b _ _ _ hin
  have hwc := hwf.wf_chan c hc
  have hdvb : is_byte (chan b c).defval := hwc.1
  -- the three shapes of the resulting channel
  have key : ∀ (d0 : List Int),
      d0.length = get_volume b →
      wf_channel (get_volume b) { data := some d0, defval := (chan b c).defval } →
      (∀ x1 y1 z1 : Int, validate_pos b (x1 + (b.margin_start + b.margin_end))
          (y1 + (b.margin_start + b.margin_end)) (z1 + (b.margin_start + b.margin_end)) = true →
        Outcome.ofMem (d0[index b (x1 + (b.margin_start + b.margin_end))
          (y1 + (b.margin_start + b.margin_end)) (z1 + (b.margin_start + b.margin_end))]?)
          Outcome.ok = get_voxel b x1 y1 z1 c) →
      ∃ b1, Outcome.ok (set_chan b c
          { data := some (d0.set (index b (x + (b.margin_start + b.margin_end))
              (y + (b.margin_start + b.margin_end)) (z + (b.margin_start + b.margin_end)))
              (to_uint8 v)),
            defval := (chan b c).defval }) = Outcome.ok b1 ∧ WF b1 ∧ b1.size = b.size ∧
        b1.margin_start = b.margin_start ∧ b1.margin_end = b.margin_end ∧
        (∀ c1, c1 ≠ c → chan b1 c1 = chan b c1) ∧
        get_voxel b1 x y z c = Outcome.ok (to_uint8 v) ∧
        (∀ x1 y1 z1 : Int, ¬ (x1 = x ∧ y1 = y ∧ z1 = z) →
          get_voxel b1 x1 y1 z1 c = get_voxel b x1 y1 z1 c) := by
    intro d0 hl0 hw0 hread
    have hidx0 : index b (x + (b.margin_start + b.margin_end))
        (y + (b.margin_start + b.margin_end)) (z + (b.margin_start + b.margin_end)) <
        d0.length := by rw [hl0]; exact hidx
    refine ⟨_, rfl, wf_set_chan b c _ hwf (wf_channel_set _ _ _ _ _ hw0 (is_byte_to_uint8 v)),
      rfl, rfl, rfl, fun c1 h1 => chan_set_chan_ne _ _ _ _ (fun e => h1 e.symm), ?_, ?_⟩
    · rw [get_voxel_inside _ x y z c hc _ (by rw [chan_set_chan_self _ _ _ hlen])
        (by simpa using hin)]
      simp [List.getElem?_set, hidx0]
    · intro x1 y1 z1 hne
      cases hq : validate_pos b (x1 + (b.margin_start + b.margin_end))
          (y1 + (b.margin_start + b.margin_end)) (z1 + (b.margin_start + b.margin_end)) with
      | false =>
        rw [get_voxel_outside _ x1 y1 z1 c hc (by simpa using hq),
          get_voxel_outside b x1 y1 z1 c hc hq, chan_set_chan_self _ _ _ hlen]
      | true =>
        rw [get_voxel_inside _ x1 y1 z1 c hc _ (by rw [chan_set_chan_self _ _ _ hlen])
          (by simpa using hq), ← hread x1 y1 z1 hq]
        have hdiff : index b (x + (b.margin_start + b.margin_end))
            (y + (b.margin_start + b.margin_end)) (z + (b.margin_start + b.margin_end)) ≠
            index b (x1 + (b.margin_start + b.margin_end))
            (y1 + (b.margin_start + b.margin_end)) (z1 + (b.margin_start + b.margin_end)) := by
          intro he
          obtain ⟨e1, e2, e3⟩ := index_injective b _ _ _ _ _ _ hin hq he
          exact hne ⟨by omega, by omega, by omega⟩
        simp [List.getElem?_set_ne hdiff]
  cases hd : (chan b c).data with
  | none =>
    by_cases hv : (chan b c).defval = v
    · rw [set_voxel_unallocated_same junk b v x y z c hc hin hd hv]
      refine ⟨b, rfl, hwf, rfl, rfl, rfl, fun _ _ => rfl, ?_, fun _ _ _ _ => rfl⟩
      rw [get_voxel_unallocated b x y z c hc hd, hv, to_uint8_of_byte v (hv ▸ hdvb)]
    · rw [set_voxel_unallocated_other junk b v x y z c hc hlen hin hd hv]
      apply key
      · exact List.length_replicate _ _
      · exact wf_channel_replicate _ _ _ (by omega) hdvb (is_byte_to_uint8 _)
      · intro x1 y1 z1 hq
        have hq1 := index_lt_volume b _ _ _ hq
        rw [get_voxel_unallocated b x1 y1 z1 c hc hd]
        simp [List.getElem?_replicate, hq1, to_uint8_of_byte _ hdvb]
  | some d =>
    have hl := hwf.data_length c hc d hd
    rw [set_voxel_allocated junk b v x y z c hc hin d hd hl]
    apply key
    · exact hl
    · have := hwc
      rw [chan_eta b c _ hd] at this
      exact this
    · intro x1 y1 z1 hq
      rw [get_voxel_inside b x1 y1 z1 c hc d hd hq]


/-- C11: for a channel `c < 10` and a position whose offset position is not valid,
`set_voxel` fails and `try_set_voxel` returns silently, and both leave the buffer exactly
as it was. -/
theorem set_voxel_out_of_bounds (junk : Nat → Int) (b : VoxelBuffer) (v x y z : Int) (c : Nat)
    (hc : c < MAX_CHANNELS)
    (hout : validate_pos b (x + (b.margin_start + b.margin_end))
      (y + (b.margin_start + b.margin_end)) (z + (b.margin_start + b.margin_end)) = false) :
    set_voxel junk b v x y z c = Outcome.failed b ∧
    try_set_voxel junk b x y z v c = Outcome.ok b := by
  refine ⟨set_voxel_outside junk b v x y z c hc hout, ?_⟩
  unfold try_set_voxel
  simp [hc, hout]

/-- C12: on a well-formed buffer, for a channel `c < 10` and a position whose offset
position is valid, `set_voxel` and `try_set_voxel` return normally with the same buffer
state. -/
theorem try_set_voxel_same_as_set_voxel (junk : Nat → Int) (b : VoxelBuffer) (hwf : WF b)
    (v x y z : Int) (c : Nat) (hc : c < MAX_CHANNELS)
    (hin : validate_pos b (x + (b.margin_start + b.margin_end))
      (y + (b.margin_start + b.margin_end)) (z + (b.margin_start + b.margin_end)) = true) :
    ∃ b1, set_voxel junk b v x y z c = Outcome.ok b1 ∧
      try_set_voxel junk b x y z v c = Outcome.ok b1 := by
  obtain ⟨b1, h1, _⟩ := set_voxel_effect junk b hwf v x y z c hc hin
  exact ⟨b1, h1, by rw [try_set_voxel_inside junk b v x y z c hin, h1]⟩

/-- C13: on a well-formed buffer whose channel `c` is unallocated with default `d`, at a
position whose offset position is valid: `set_voxel(d, ...)` leaves the buffer unchanged,
and `set_voxel(v, ...)` with a byte `v ≠ d` makes channel `c` an allocated array of
`get_volume` bytes in which the written index holds `v` and every other index holds `d`. -/
theorem set_voxel_on_unallocated (junk : Nat → Int) (b : VoxelBuffer) (hwf : WF b)
    (x y z : Int) (c : Nat) (hc : c < MAX_CHANNELS)
    (hin : validate_pos b (x + (b.margin_start + b.margin_end))
      (y + (b.margin_start + b.margin_end)) (z + (b.margin_start + b.margin_end)) = true)
    (hd : (chan b c).data = none) :
    set_voxel junk b (chan b c).defval x y z c = Outcome.ok b ∧
    ∀ v, is_byte v → v ≠ (chan b c).defval →
      ∃ d, set_voxel junk b v x y z c =
          Outcome.ok (set_chan b c { data := some d, defval := (chan b c).defval }) ∧
        d.length = get_volume b ∧
        d[index b (x + (b.margin_start + b.margin_end))
          (y + (b.margin_start + b.margin_end)) (z + (b.margin_start + b.margin_end))]? = some v ∧
        ∀ k, k < get_volume b →
          k ≠ index b (x + (b.margin_start + b.margin_end))
            (y + (b.margin_start + b.margin_end)) (z + (b.margin_start + b.margin_end)) →
          d[k]? = some (chan b c).defval := by
  have hlen : c < b.channels.length := by rw [hwf.1]; exact hc
  have hidx := index_lt_volume b _ _ _ hin
  have hdvb : is_byte (chan b c).defval := (hwf.wf_chan c hc).1
  refine ⟨set_voxel_unallocated_same junk b _ x y z c hc hin hd rfl, ?_⟩
  intro v hv hne
  refine ⟨_, set_voxel_unallocated_other junk b v x y z c hc hlen hin hd (fun e => hne e.symm),
    by simp, ?_, ?_⟩
  · simp [List.getElem?_set, hidx, to_uint8_of_byte v hv]
  · intro k hk hki
    rw [List.getElem?_set_ne (fun e => hki e.symm)]
    simp [List.getElem?_replicate, hk, to_uint8_of_byte _ hdvb]

/-- C14: on a well-formed buffer, `set_voxel(v, p, c)` at a position `p` whose offset
position is valid returns normally and changes nothing but the voxel at `p` in channel
`c`: `get_voxel(q, c)` is unchanged for every position `q ≠ p`, `get_voxel(q, c1)` is
unchanged for every other channel `c1` and every `q`, and size and margins are unchanged. -/
theorem set_voxel_frame (junk : Nat → Int) (b : VoxelBuffer) (hwf : WF b) (v x y z : Int)
    (c : Nat) (hc : c < MAX_CHANNELS)
    (hin : validate_pos b (x + (b.margin_start + b.margin_end))
      (y + (b.margin_start + b.margin_end)) (z + (b.margin_start + b.margin_end)) = true) :
    ∃ b1, set_voxel junk b v x y z c = Outcome.ok b1 ∧
      (∀ x1 y1 z1 : Int, ¬ (x1 = x ∧ y1 = y ∧ z1 = z) →
        get_voxel b1 x1 y1 z1 c = get_voxel b x1 y1 z1 c) ∧
      (∀ c1, c1 ≠ c → ∀ x1 y1 z1 : Int, get_voxel b1 x1 y1 z1 c1 = get_voxel b x1 y1 z1 c1) ∧
      b1.size = b.size ∧ b1.margin_start = b.margin_start ∧ b1.margin_end = b.margin_end := by
  obtain ⟨b1, h1, _, hs, hms, hme, hch, _, hq⟩ := set_voxel_effect junk b hwf v x y z c hc hin
  exact ⟨b1, h1, hq, fun c1 hne x1 y1 z1 => get_voxel_congr b1 b x1 y1 z1 c1 (hch c1 hne) hs hms hme,
    hs, hms, hme⟩

/-- C15: for a channel `c < 10`, `fill_area` returns with the buffer unchanged whenever the
sorted and clamped box has a zero extent on some axis; in particular for
`min = max = (0,0,0)`, on every buffer. -/
theorem fill_area_zero_extent (junk : Nat → Int) (b : VoxelBuffer) (v : Int)
    (min max : Vector3i) (c : Nat) (hc : c < MAX_CHANNELS) :
    ((((fill_area_box b min max).2.sub (fill_area_box b min max).1).x = 0 ∨
        ((fill_area_box b min max).2.sub (fill_area_box b min max).1).y = 0 ∨
        ((fill_area_box b min max).2.sub (fill_area_box b min max).1).z = 0) →
      fill_area junk b v min max c = Outcome.ok b) ∧
    fill_area junk b v { x := 0, y := 0, z := 0 } { x := 0, y := 0, z := 0 } c =
      Outcome.ok b := by
  constructor
  · intro h
    unfold fill_area
    simp only [hc, not_true_eq_false, if_false, h, if_true]
  · unfold fill_area
    simp [hc, fill_area_box, sort_min_max, Vector3i.sub]


/-! ## Characterisation of `is_uniform` and of `compress_uniform_channels` -/

theorem scan_false (d : List Int) (v : Int) :
    ∀ n i, is_uniform_scan d v i n = Outcome.ok false →
      ∃ k, i ≤ k ∧ k < i + n ∧ d[k]? ≠ some v := by
  intro n
  induction n with
  | zero => intro i h; simp [is_uniform_scan] at h
  | succ n ih =>
    intro i h
    unfold is_uniform_scan at h
    cases hk : d[i]? with
    | none => simp [hk] at h
    | some w =>
      simp only [hk, ofMem_some] at h
      by_cases hw : w = v
      · simp only [hw, ne_eq, not_true_eq_false, if_false] at h
        obtain ⟨k, h1, h2, h3⟩ := ih (i + 1) h
        exact ⟨k, by omega, by omega, h3⟩
      · exact ⟨i, Nat.le_refl i, by omega, by rw [hk]; simpa using hw⟩

/-- C17: on a well-formed buffer and for a channel `c < 10`, `is_uniform(c)` returns true
when the channel is unallocated, and when it is allocated it returns true if and only if
every byte of the array (indices `0` to `get_volume - 1`) equals the byte at index `0`. -/
theorem is_uniform_iff (b : VoxelBuffer) (hwf : WF b) (c : Nat) (hc : c < MAX_CHANNELS) :
    ((chan b c).data = none → is_uniform b c = Outcome.ok true) ∧
    (∀ d, (chan b c).data = some d →
      ∃ u, is_uniform b c = Outcome.ok u ∧
        (u = true ↔ ∀ k, k < get_volume b → d[k]? = d[0]?)) := by
  refine ⟨is_uniform_unallocated b c hc, ?_⟩
  intro d hd
  have hne := hwf.data_ne_nil c hc d hd
  have hl := hwf.data_length c hc d hd
  obtain ⟨v, hv⟩ : ∃ v, d[0]? = some v := by
    cases d with
    | nil => exact absurd rfl hne
    | cons a t => exact ⟨a, by simp⟩
  have hpos : 0 < d.length := by
    cases d with
    | nil => exact absurd rfl hne
    | cons a t => simp
  obtain ⟨u, hu⟩ := scan_total d v (get_volume b - 1) 1 (by omega)
  have hun : is_uniform b c = Outcome.ok u := by
    unfold is_uniform
    simp [hc, hd, hv, hu]
  refine ⟨u, hun, ?_⟩
  constructor
  · intro hut
    subst hut
    intro k hk
    rw [hv]
    exact is_uniform_true_elems b c hc d v hd hv hun k hk
  · intro hall
    cases u with
    | true => rfl
    | false =>
      exfalso
      obtain ⟨k, h1, h2, h3⟩ := scan_false d v _ 1 hu
      exact h3 (by rw [hall k (by omega), hv])

/-- C18: on a well-formed buffer `compress_uniform_channels` returns normally, and for
every channel `c < 10`: an unallocated channel is untouched; an allocated channel that is
not uniform is left with identical contents and default; an allocated uniform channel
becomes unallocated with the byte shared by its array as default; and afterwards no
allocated channel is uniform. -/
theorem compress_uniform_channels_effect (b : VoxelBuffer) (hwf : WF b) :
    ∃ b1, compress_uniform_channels b = Outcome.ok b1 ∧
      ∀ c, c < MAX_CHANNELS →
        ((chan b c).data = none → chan b1 c = chan b c) ∧
        (∀ d, (chan b c).data = some d → is_uniform b c = Outcome.ok false →
          chan b1 c = chan b c) ∧
        (∀ d, (chan b c).data = some d → is_uniform b c = Outcome.ok true →
          ∃ v, (∀ k, k < get_volume b → d[k]? = some v) ∧
            chan b1 c = { data := none, defval := v }) ∧
        (∀ d, (chan b1 c).data = some d → is_uniform b1 c = Outcome.ok false) := by
  unfold compress_uniform_channels
  obtain ⟨b1, h1, _⟩ := compress_loop_total MAX_CHANNELS 0 b (by omega) hwf
  refine ⟨b1, h1, ?_⟩
  obtain ⟨hs, _, _, _, _, hin⟩ := compress_loop_spec MAX_CHANNELS 0 b b1 (by omega) h1
  intro c hc
  rcases hin c (Nat.zero_le c) (by omega) with ⟨hch, hst⟩ | ⟨d, v, hd, h0, hun, hch⟩
  · refine ⟨fun _ => hch, fun _ _ _ => hch, ?_, ?_⟩
    · intro d hd hu
      rcases hst with hst | hst
      · rw [hd] at hst; cases hst
      · rw [hu] at hst; cases hst
    · intro d hd
      rcases hst with hst | hst
      · rw [hch, hst] at hd; cases hd
      · rw [is_uniform_congr b1 b c hch hs]; exact hst
  · refine ⟨?_, ?_, ?_, ?_⟩
    · intro hn; rw [hd] at hn; cases hn
    · intro _ _ hu; rw [hun] at hu; cases hu
    · intro d1 hd1 _
      rw [hd] at hd1
      cases hd1
      refine ⟨v, is_uniform_true_elems b c hc d v hd h0 hun, ?_⟩
      rw [hch, to_uint8_of_byte v (hwf.data_byte c hc d hd v (List.getElem?_mem h0))]
    · intro d1 hd1
      rw [hch] at hd1
      cases hd1


/-! ## `fill_area` -/

theorem memset_spec (d : List Int) (off : Nat) (v : Int) (n : Nat) (d1 : List Int)
    (h : memset d off v n = some d1) :
    d1.length = d.length ∧
    ∀ k, d1[k]? = if off ≤ k ∧ k < off + n then some (to_uint8 v) else d[k]? := by
  unfold memset at h
  split at h
  · rename_i hle
    simp only [Option.some.injEq] at h
    subst h
    constructor
    · simp only [List.length_append, List.length_take, List.length_replicate, List.length_drop]
      omega
    · intro k
      by_cases h1 : k < off
      · have : ¬ (off ≤ k ∧ k < off + n) := by omega
        rw [if_neg this, List.append_assoc, List.getElem?_append_left (by simp; omega)]
        rw [List.getElem?_take_of_lt h1]
      · by_cases h2 : k < off + n
        · have : off ≤ k ∧ k < off + n := ⟨by omega, h2⟩
          rw [if_pos this, List.append_assoc, List.getElem?_append_right (by simp; omega),
            List.getElem?_append_left (by simp; omega)]
          simp only [List.length_take, List.getElem?_replicate]
          rw [if_pos (by omega)]
        · have : ¬ (off ≤ k ∧ k < off + n) := by omega
          rw [if_neg this, List.append_assoc, List.getElem?_append_right (by simp; omega),
            List.getElem?_append_right (by simp; omega), List.getElem?_drop]
          simp only [List.length_take, List.length_replicate]
          congr 1
          omega
  · cases h

theorem memset_some (d : List Int) (off : Nat) (v : Int) (n : Nat) (h : off + n ≤ d.length) :
    ∃ d1, memset d off v n = some d1 := by
  unfold memset
  rw [if_pos h]
  exact ⟨_, rfl⟩


theorem index_cast (b : VoxelBuffer) (x y z : Int) (h : validate_pos b x y z = true) :
    ((index b x y z : Nat) : Int) = y + b.size.y * (x + b.size.x * z) := by
  have := index_nonneg_of_valid b x y z h
  unfold index
  omega

theorem validate_pos_iff (b : VoxelBuffer) (x y z : Int) :
    validate_pos b x y z = true ↔
      (0 ≤ x ∧ x < b.size.x ∧ 0 ≤ y ∧ y < b.size.y ∧ 0 ≤ z ∧ z < b.size.z) := by
  simp [validate_pos]

/-- The indices of the row of `n` bytes that starts at the valid position `(x, min_y, z)`
are exactly the indices of the valid positions `(x, y, z)` with `min_y ≤ y < min_y + n`. -/
theorem index_in_row (b : VoxelBuffer) (x z px py pz min_y : Int) (n : Nat)
    (hrow : validate_pos b x min_y z = true) (hend : min_y + n ≤ b.size.y)
    (hP : validate_pos b px py pz = true) :
    (index b x min_y z ≤ index b px py pz ∧ index b px py pz < index b x min_y z + n) ↔
      (px = x ∧ pz = z ∧ min_y ≤ py ∧ py < min_y + n) := by
  have c0 := index_cast b x min_y z hrow
  have cP := index_cast b px py pz hP
  constructor
  · rintro ⟨h1, h2⟩
    have hr := (validate_pos_iff b x min_y z).1 hrow
    have hj : validate_pos b x (min_y + ((index b px py pz - index b x min_y z : Nat) : Int)) z
        = true := by
      rw [validate_pos_iff]
      omega
    have cj := index_cast b x _ z hj
    have he : index b px py pz =
        index b x (min_y + ((index b px py pz - index b x min_y z : Nat) : Int)) z := by
      omega
    obtain ⟨e1, e2, e3⟩ := index_injective b _ _ _ _ _ _ hP hj he
    refine ⟨e1, e3, ?_, ?_⟩ <;> omega
  · rintro ⟨e1, e3, h1, h2⟩
    subst e1 e3
    omega

theorem fill_area_x_loop_spec (b : VoxelBuffer) (v min_y area_y z : Int)
    (hz : 0 ≤ z ∧ z < b.size.z) (hy0 : 0 ≤ min_y) (hay : 0 < area_y)
    (hy1 : min_y + area_y ≤ b.size.y) :
    ∀ (n : Nat) (x : Int) (d : List Int), 0 ≤ x → x + n ≤ b.size.x → d.length = get_volume b →
      ∃ d1, fill_area_x_loop b v min_y area_y z x n d = Outcome.ok d1 ∧
        d1.length = get_volume b ∧
        ∀ px py pz : Int, validate_pos b px py pz = true →
          ((pz = z ∧ x ≤ px ∧ px < x + n ∧ min_y ≤ py ∧ py < min_y + area_y) →
            d1[index b px py pz]? = some (to_uint8 v)) ∧
          (¬ (pz = z ∧ x ≤ px ∧ px < x + n ∧ min_y ≤ py ∧ py < min_y + area_y) →
            d1[index b px py pz]? = d[index b px py pz]?) := by
  intro n
  induction n with
  | zero =>
    intro x d _ _ hl
    refine ⟨d, rfl, hl, fun px py pz _ => ⟨fun h => ?_, fun _ => rfl⟩⟩
    omega
  | succ n ih =>
    intro x d hx0 hx1 hl
    have hrow : validate_pos b x min_y z = true := by
      rw [validate_pos_iff]; omega
    have hlast : validate_pos b x (min_y + area_y - 1) z = true := by
      rw [validate_pos_iff]; omega
    have hoff := index_lt_volume b _ _ _ hrow
    have hlastlt := index_lt_volume b _ _ _ hlast
    have c0 := index_cast b x min_y z hrow
    have c1 := index_cast b x (min_y + area_y - 1) z hlast
    have hfit : index b x min_y z + area_y.toNat ≤ d.length := by
      rw [hl]; omega
    obtain ⟨d2, hd2⟩ := memset_some d (index b x min_y z) v area_y.toNat hfit
    obtain ⟨hl2, hget2⟩ := memset_spec d _ v _ d2 hd2
    obtain ⟨d1, hd1, hl1, hspec⟩ := ih (x + 1) d2 (by omega) (by omega) (by rw [hl2, hl])
    refine ⟨d1, ?_, hl1, ?_⟩
    · unfold fill_area_x_loop
      simp only [Vector3i.zero, Int.zero_add, ge_iff_le, Nat.not_le.mpr hoff, if_false, hd2,
        ofMem_some]
      exact hd1
    · intro px py pz hP
      have hrowiff := index_in_row b x z px py pz min_y area_y.toNat hrow (by omega) hP
      obtain ⟨hin1, hout1⟩ := hspec px py pz hP
      constructor
      · intro hbox
        by_cases hnow : px = x
        · rw [hout1 (by omega), hget2, if_pos (hrowiff.2 ⟨hnow, hbox.1, by omega, by omega⟩)]
        · exact hin1 ⟨hbox.1, by omega, by omega, hbox.2.2.2.1, hbox.2.2.2.2⟩
      · intro hbox
        have hnrow : ¬ (index b x min_y z ≤ index b px py pz ∧
            index b px py pz < index b x min_y z + area_y.toNat) := by
          intro hr
          obtain ⟨e1, e2, e3, e4⟩ := hrowiff.1 hr
          exact hbox ⟨e2, by omega, by omega, e3, by omega⟩
        rw [hout1 (fun h => hbox ⟨h.1, by omega, by omega, h.2.2.2.1, h.2.2.2.2⟩), hget2,
          if_neg hnrow]


theorem fill_area_z_loop_spec (b : VoxelBuffer) (v min_x min_y area_y : Int) (nx : Nat)
    (hx0 : 0 ≤ min_x) (hx1 : min_x + nx ≤ b.size.x) (hy0 : 0 ≤ min_y) (hay : 0 < area_y)
    (hy1 : min_y + area_y ≤ b.size.y) :
    ∀ (n : Nat) (z : Int) (d : List Int), 0 ≤ z → z + n ≤ b.size.z → d.length = get_volume b →
      ∃ d1, fill_area_z_loop b v min_x min_y area_y nx z n d = Outcome.ok d1 ∧
        d1.length = get_volume b ∧
        ∀ px py pz : Int, validate_pos b px py pz = true →
          ((z ≤ pz ∧ pz < z + n ∧ min_x ≤ px ∧ px < min_x + nx ∧
              min_y ≤ py ∧ py < min_y + area_y) →
            d1[index b px py pz]? = some (to_uint8 v)) ∧
          (¬ (z ≤ pz ∧ pz < z + n ∧ min_x ≤ px ∧ px < min_x + nx ∧
              min_y ≤ py ∧ py < min_y + area_y) →
            d1[index b px py pz]? = d[index b px py pz]?) := by
  intro n
  induction n with
  | zero =>
    intro z d _ _ hl
    refine ⟨d, rfl, hl, fun px py pz _ => ⟨fun h => ?_, fun _ => rfl⟩⟩
    omega
  | succ n ih =>
    intro z d hz0 hz1 hl
    obtain ⟨d2, hd2, hl2, hspec2⟩ :=
      fill_area_x_loop_spec b v min_y area_y z ⟨hz0, by omega⟩ hy0 hay hy1 nx min_x d hx0 hx1 hl
    obtain ⟨d1, hd1, hl1, hspec1⟩ := ih (z + 1) d2 (by omega) (by omega) hl2
    refine ⟨d1, ?_, hl1, ?_⟩
    · unfold fill_area_z_loop
      rw [hd2, next_ok]
      exact hd1
    · intro px py pz hP
      obtain ⟨hin1, hout1⟩ := hspec1 px py pz hP
      obtain ⟨hin2, hout2⟩ := hspec2 px py pz hP
      constructor
      · intro hbox
        by_cases hnow : pz = z
        · rw [hout1 (by omega)]
          exact hin2 ⟨hnow, hbox.2.2.1, hbox.2.2.2.1, hbox.2.2.2.2.1, hbox.2.2.2.2.2⟩
        · exact hin1 ⟨by omega, by omega, hbox.2.2⟩
      · intro hbox
        rw [hout1 (fun h => hbox ⟨by omega, by omega, h.2.2⟩)]
        exact hout2 (fun h => hbox ⟨by omega, by omega, h.2⟩)

theorem clamp_axis_id (v lo hi : Int) (h1 : lo ≤ v) (h2 : v < hi) : clamp_axis v lo hi = v := by
  unfold clamp_axis
  simp only [Int.not_lt.mpr h1, if_false, ge_iff_le, Int.not_le.mpr h2]

theorem fill_area_box_inside (b : VoxelBuffer) (min max : Vector3i)
    (h : box_inside b.size min max) : fill_area_box b min max = (min, max) := by
  obtain ⟨h1, h2, h3, h4, h5, h6, h7, h8, h9⟩ := h
  unfold fill_area_box sort_min_max clamp_to Vector3i.add
  simp only [gt_iff_lt, Int.not_lt.mpr (Int.le_of_lt h2), Int.not_lt.mpr (Int.le_of_lt h5),
    Int.not_lt.mpr (Int.le_of_lt h8), if_false]
  rw [clamp_axis_id _ _ _ h1 (by omega), clamp_axis_id _ _ _ h4 (by omega),
    clamp_axis_id _ _ _ h7 (by omega), clamp_axis_id _ _ _ (by omega) (by omega),
    clamp_axis_id _ _ _ (by omega) (by omega), clamp_axis_id _ _ _ (by omega) (by omega)]

/-- The rows of `fill_area` on an allocated channel: inside the box every byte becomes the
value, outside nothing changes. -/
theorem fill_area_rows_spec (b : VoxelBuffer) (v : Int) (min max : Vector3i) (c : Nat)
    (h : box_inside b.size min max) (d : List Int)
    (hd : (chan b c).data = some d) (hl : d.length = get_volume b) :
    ∃ d1, fill_area_rows b v min max c =
        Outcome.ok (set_chan b c { data := some d1, defval := (chan b c).defval }) ∧
      d1.length = get_volume b ∧
      ∀ x y z : Int, validate_pos b x y z = true →
        (in_box min max x y z → d1[index b x y z]? = some (to_uint8 v)) ∧
        (¬ in_box min max x y z → d1[index b x y z]? = d[index b x y z]?) := by
  obtain ⟨h1, h2, h3, h4, h5, h6, h7, h8, h9⟩ := h
  obtain ⟨d1, hd1, hl1, hspec⟩ :=
    fill_area_z_loop_spec b v min.x min.y (max.y - min.y) (max.x - min.x).toNat h1 (by omega) h4
      (by omega) (by omega) (max.z - min.z).toNat min.z d h7 (by omega) hl
  refine ⟨d1, ?_, hl1, ?_⟩
  · unfold fill_area_rows
    rw [hd, ofMem_some, hd1, next_ok]
  · intro x y z hP
    obtain ⟨hin, hout⟩ := hspec x y z hP
    unfold in_box
    constructor
    · intro hb
      exact hin (by omega)
    · intro hb
      exact hout (fun hh => hb (by omega))

/-- C16: on a well-formed buffer, for a channel `c < 10`, a byte value `v` and a box with
`0 ≤ min < max ≤ size` on every axis (storage coordinates), `fill_area(v, min, max, c)`
returns normally, keeps the size, and afterwards the value of channel `c` is `v` at every
position of the half-open box `[min, max)` and is unchanged at every valid position
outside the box, whether the channel was allocated or not. -/
theorem fill_area_fills_box (junk : Nat → Int) (b : VoxelBuffer) (hwf : WF b) (v : Int)
    (min max : Vector3i) (c : Nat) (hc : c < MAX_CHANNELS) (hv : is_byte v)
    (hbox : box_inside b.size min max) :
    ∃ b1, fill_area junk b v min max c = Outcome.ok b1 ∧ b1.size = b.size ∧
      ∀ x y z : Int, validate_pos b x y z = true →
        (in_box min max x y z → stored b1 c x y z = some v) ∧
        (¬ in_box min max x y z → stored b1 c x y z = stored b c x y z) := by
  have hlen : c < b.channels.length := by rw [hwf.1]; exact hc
  have hdvb : is_byte (chan b c).defval := (hwf.wf_chan c hc).1
  have hbyte := to_uint8_of_byte v hv
  have harea : ¬ ((max.sub min).x = 0 ∨ (max.sub min).y = 0 ∨ (max.sub min).z = 0) := by
    obtain ⟨h1, h2, h3, h4, h5, h6, h7, h8, h9⟩ := hbox
    simp only [Vector3i.sub]
    omega
  unfold fill_area
  simp only [hc, not_true_eq_false, if_false, fill_area_box_inside b min max hbox, harea]
  cases hd : (chan b c).data with
  | none =>
    by_cases hdef : (chan b c).defval = v
    · simp only [hdef, if_true]
      refine ⟨b, rfl, rfl, fun x y z _ => ⟨fun _ => ?_, fun _ => rfl⟩⟩
      simp [stored, hd, hdef]
    · simp only [hdef, if_false, create_channel_same_size junk b c _ hlen, next_ok]
      have hd2 : (chan (set_chan b c
          { data := some (List.replicate (get_volume b) (to_uint8 (chan b c).defval)),
            defval := (chan b c).defval }) c).data =
          some (List.replicate (get_volume b) (to_uint8 (chan b c).defval)) := by
        rw [chan_set_chan_self _ _ _ hlen]
      obtain ⟨d1, hd1, hl1, hspec⟩ := fill_area_rows_spec _ v min max c
        (by simpa using hbox) _ hd2 (by simp)
      rw [hd1]
      refine ⟨_, rfl, rfl, ?_⟩
      intro x y z hP
      obtain ⟨hin, hout⟩ := hspec x y z (by simpa using hP)
      have hidx := index_lt_volume b _ _ _ hP
      simp only [stored, set_chan_set_chan, chan_set_chan_self _ _ _ hlen, set_chan_index, hd]
      simp only [set_chan_index] at hin hout
      refine ⟨fun hb => by rw [hin hb, hbyte], fun hb => ?_⟩
      rw [hout hb]
      simp [List.getElem?_replicate, hidx, to_uint8_of_byte _ hdvb]
  | some d =>
    have hl := hwf.data_length c hc d hd
    obtain ⟨d1, hd1, hl1, hspec⟩ := fill_area_rows_spec b v min max c hbox d hd hl
    simp only [hd1]
    refine ⟨_, rfl, rfl, ?_⟩
    intro x y z hP
    obtain ⟨hin, hout⟩ := hspec x y z hP
    simp only [stored, chan_set_chan_self _ _ _ hlen, set_chan_index, hd]
    exact ⟨fun hb => by rw [hin hb, hbyte], fun hb => hout hb⟩


/-! ## `generate_ao` -/

theorem get_voxel_byte (b : VoxelBuffer) (hwf : WF b) (x y z : Int) (c : Nat)
    (hc : c < MAX_CHANNELS) : ∃ v, get_voxel b x y z c = Outcome.ok v ∧ is_byte v := by
  cases hd : (chan b c).data with
  | none =>
    exact ⟨_, get_voxel_unallocated b x y z c hc hd, (hwf.wf_chan c hc).1⟩
  | some d =>
    cases hv : validate_pos b (x + (b.margin_start + b.margin_end))
        (y + (b.margin_start + b.margin_end)) (z + (b.margin_start + b.margin_end)) with
    | false => exact ⟨_, get_voxel_outside b x y z c hc hv, (hwf.wf_chan c hc).1⟩
    | true =>
      have hlt := index_lt_volume b _ _ _ hv
      rw [← hwf.data_length c hc d hd] at hlt
      refine ⟨d[index b (x + (b.margin_start + b.margin_end))
        (y + (b.margin_start + b.margin_end)) (z + (b.margin_start + b.margin_end))], ?_, ?_⟩
      · rw [get_voxel_inside b x y z c hc d hd hv, List.getElem?_eq_getElem hlt]
        rfl
      · exact hwf.data_byte c hc d hd _ (List.getElem_mem hlt)

theorem ao_value_congr (b1 b2 : VoxelBuffer) (x y z : Int)
    (hch : chan b1 CHANNEL_ISOLEVEL = chan b2 CHANNEL_ISOLEVEL) (hs : b1.size = b2.size)
    (hms : b1.margin_start = b2.margin_start) (hme : b1.margin_end = b2.margin_end) :
    ao_value b1 x y z = ao_value b2 x y z := by
  unfold ao_value
  simp only [get_voxel_congr b1 b2 _ _ _ CHANNEL_ISOLEVEL hch hs hms hme]

theorem ao_value_byte (b : VoxelBuffer) (hwf : WF b) (x y z : Int) :
    is_byte (ao_value b x y z) := by
  have hc : CHANNEL_ISOLEVEL < MAX_CHANNELS := by decide
  obtain ⟨i0, h0, b0⟩ := get_voxel_byte b hwf x y z CHANNEL_ISOLEVEL hc
  obtain ⟨i1, h1, b1⟩ := get_voxel_byte b hwf (x + 1) y z CHANNEL_ISOLEVEL hc
  obtain ⟨i2, h2, b2⟩ := get_voxel_byte b hwf (x - 1) y z CHANNEL_ISOLEVEL hc
  obtain ⟨i3, h3, b3⟩ := get_voxel_byte b hwf x (y + 1) z CHANNEL_ISOLEVEL hc
  obtain ⟨i4, h4, b4⟩ := get_voxel_byte b hwf x (y - 1) z CHANNEL_ISOLEVEL hc
  obtain ⟨i5, h5, b5⟩ := get_voxel_byte b hwf x y (z + 1) CHANNEL_ISOLEVEL hc
  obtain ⟨i6, h6, b6⟩ := get_voxel_byte b hwf x y (z - 1) CHANNEL_ISOLEVEL hc
  unfold is_byte at *
  unfold ao_value
  simp only [h0, h1, h2, h3, h4, h5, h6, Outcome.getD]
  rw [Int.tdiv_eq_ediv (by omega) (by omega)]
  split <;> omega

/-- One pass of the loop body of `generate_ao` at an interior cell keeps the invariant and
adds the cell to the processed ones. -/
theorem generate_ao_cell_spec (junk : Nat → Int) (b0 b : VoxelBuffer)
    (P : Int → Int → Int → Prop) (hinv : ao_inv b0 b P)
    (hm : b0.margin_start = 0 ∧ b0.margin_end = 0) (x y z : Int) (hint : interior b0 x y z) :
    ∃ b1, generate_ao_cell junk b x y z = Outcome.ok b1 ∧
      ao_inv b0 b1 (fun x1 y1 z1 => P x1 y1 z1 ∨ (x1 = x ∧ y1 = y ∧ z1 = z)) := by
  obtain ⟨hwf, hs, hms, hme, hch, hao⟩ := hinv
  have hc : CHANNEL_ISOLEVEL < MAX_CHANNELS := by decide
  have hca : CHANNEL_AO < MAX_CHANNELS := by decide
  obtain ⟨i0, h0, _⟩ := get_voxel_byte b hwf x y z CHANNEL_ISOLEVEL hc
  obtain ⟨i1, h1, _⟩ := get_voxel_byte b hwf (x + 1) y z CHANNEL_ISOLEVEL hc
  obtain ⟨i2, h2, _⟩ := get_voxel_byte b hwf (x - 1) y z CHANNEL_ISOLEVEL hc
  obtain ⟨i3, h3, _⟩ := get_voxel_byte b hwf x (y + 1) z CHANNEL_ISOLEVEL hc
  obtain ⟨i4, h4, _⟩ := get_voxel_byte b hwf x (y - 1) z CHANNEL_ISOLEVEL hc
  obtain ⟨i5, h5, _⟩ := get_voxel_byte b hwf x y (z + 1) CHANNEL_ISOLEVEL hc
  obtain ⟨i6, h6, _⟩ := get_voxel_byte b hwf x y (z - 1) CHANNEL_ISOLEVEL hc
  have hval : (if Int.tdiv (i1 + i2 + i3 + i4 + i5 + i6) 6 - i0 < 0 then 0
      else Int.tdiv (i1 + i2 + i3 + i4 + i5 + i6) 6 - i0) = ao_value b x y z := by
    unfold ao_value
    simp only [h0, h1, h2, h3, h4, h5, h6, Outcome.getD]
  have hvb : ao_value b x y z = ao_value b0 x y z :=
    ao_value_congr b b0 x y z (hch _ (by decide)) hs hms hme
  have hin : validate_pos b (x + (b.margin_start + b.margin_end))
      (y + (b.margin_start + b.margin_end)) (z + (b.margin_start + b.margin_end)) = true := by
    rw [hms, hme, hm.1, hm.2, validate_pos_iff, hs]
    unfold interior at hint
    omega
  obtain ⟨b1, hset, hwf1, hs1, hms1, hme1, hch1, hget1, hframe1⟩ :=
    set_voxel_effect junk b hwf (ao_value b x y z) x y z CHANNEL_AO hca hin
  refine ⟨b1, ?_, hwf1, hs1.trans hs, hms1.trans hms, hme1.trans hme, ?_, ?_⟩
  · unfold generate_ao_cell
    simp only [h0, h1, h2, h3, h4, h5, h6, next_ok, hval, hset]
  · intro c hne
    rw [hch1 c hne, hch c hne]
  · intro x1 y1 z1
    by_cases hp : x1 = x ∧ y1 = y ∧ z1 = z
    · obtain ⟨e1, e2, e3⟩ := hp
      subst e1 e2 e3
      refine ⟨fun _ => ?_, fun hn => absurd (Or.inr ⟨rfl, rfl, rfl⟩) hn⟩
      rw [hget1, to_uint8_of_byte _ (ao_value_byte b hwf _ _ _), hvb]
    · rw [hframe1 x1 y1 z1 hp]
      obtain ⟨hP, hnP⟩ := hao x1 y1 z1
      refine ⟨fun h => ?_, fun h => hnP (fun hh => h (Or.inl hh))⟩
      rcases h with h | h
      · exact hP h
      · exact absurd h hp

theorem ao_inv_congr (b0 b : VoxelBuffer) (P Q : Int → Int → Int → Prop)
    (h : ∀ x y z, P x y z ↔ Q x y z) (hinv : ao_inv b0 b P) : ao_inv b0 b Q := by
  obtain ⟨hwf, hs, hms, hme, hch, hao⟩ := hinv
  refine ⟨hwf, hs, hms, hme, hch, fun x y z => ?_⟩
  obtain ⟨h1, h2⟩ := hao x y z
  exact ⟨fun hq => h1 ((h x y z).2 hq), fun hq => h2 (fun hp => hq ((h x y z).1 hp))⟩


theorem generate_ao_x_loop_spec (junk : Nat → Int) (b0 : VoxelBuffer)
    (hm : b0.margin_start = 0 ∧ b0.margin_end = 0) (y z : Int) :
    ∀ (n : Nat) (x : Int) (b : VoxelBuffer) (P : Int → Int → Int → Prop), ao_inv b0 b P →
      (∀ x1 : Int, x ≤ x1 → x1 < x + n → interior b0 x1 y z) →
      ∃ b1, generate_ao_x_loop junk y z x n b = Outcome.ok b1 ∧
        ao_inv b0 b1 (fun x1 y1 z1 =>
          P x1 y1 z1 ∨ (y1 = y ∧ z1 = z ∧ x ≤ x1 ∧ x1 < x + n)) := by
  intro n
  induction n with
  | zero =>
    intro x b P hinv _
    refine ⟨b, rfl, ao_inv_congr b0 b P _ (fun x1 y1 z1 => ?_) hinv⟩
    constructor
    · exact Or.inl
    · rintro (h | h)
      · exact h
      · omega
  | succ n ih =>
    intro x b P hinv hint
    obtain ⟨b2, h2, hinv2⟩ :=
      generate_ao_cell_spec junk b0 b P hinv hm x y z (hint x (Int.le_refl x) (by omega))
    obtain ⟨b1, h1, hinv1⟩ := ih (x + 1) b2 _ hinv2 (fun x1 ha hb => hint x1 (by omega) (by omega))
    refine ⟨b1, ?_, ao_inv_congr b0 b1 _ _ (fun x1 y1 z1 => ?_) hinv1⟩
    · unfold generate_ao_x_loop
      rw [h2, next_ok, h1]
    · constructor
      · rintro ((h | h) | h)
        · exact Or.inl h
        · exact Or.inr ⟨h.2.1, h.2.2, by omega, by omega⟩
        · exact Or.inr ⟨h.1, h.2.1, by omega, by omega⟩
      · rintro (h | h)
        · exact Or.inl (Or.inl h)
        · by_cases hx : x1 = x
          · exact Or.inl (Or.inr ⟨hx, h.1, h.2.1⟩)
          · exact Or.inr ⟨h.1, h.2.1, by omega, by omega⟩

theorem generate_ao_z_loop_spec (junk : Nat → Int) (b0 : VoxelBuffer)
    (hm : b0.margin_start = 0 ∧ b0.margin_end = 0) (nx : Nat) (y : Int) :
    ∀ (n : Nat) (z : Int) (b : VoxelBuffer) (P : Int → Int → Int → Prop), ao_inv b0 b P →
      (∀ x1 z1 : Int, z ≤ z1 → z1 < z + n → 1 ≤ x1 → x1 < 1 + nx → interior b0 x1 y z1) →
      ∃ b1, generate_ao_z_loop junk nx y z n b = Outcome.ok b1 ∧
        ao_inv b0 b1 (fun x1 y1 z1 =>
          P x1 y1 z1 ∨ (y1 = y ∧ z ≤ z1 ∧ z1 < z + n ∧ 1 ≤ x1 ∧ x1 < 1 + nx)) := by
  intro n
  induction n with
  | zero =>
    intro z b P hinv _
    refine ⟨b, rfl, ao_inv_congr b0 b P _ (fun x1 y1 z1 => ?_) hinv⟩
    constructor
    · exact Or.inl
    · rintro (h | h)
      · exact h
      · omega
  | succ n ih =>
    intro z b P hinv hint
    obtain ⟨b2, h2, hinv2⟩ :=
      generate_ao_x_loop_spec junk b0 hm y z nx 1 b P hinv
        (fun x1 ha hb => hint x1 z (Int.le_refl z) (by omega) ha hb)
    obtain ⟨b1, h1, hinv1⟩ :=
      ih (z + 1) b2 _ hinv2 (fun x1 z1 ha hb hc hd => hint x1 z1 (by omega) (by omega) hc hd)
    refine ⟨b1, ?_, ao_inv_congr b0 b1 _ _ (fun x1 y1 z1 => ?_) hinv1⟩
    · unfold generate_ao_z_loop
      rw [h2, next_ok, h1]
    · constructor
      · rintro ((h | h) | h)
        · exact Or.inl h
        · exact Or.inr ⟨h.1, by omega, by omega, h.2.2.1, h.2.2.2⟩
        · exact Or.inr ⟨h.1, by omega, by omega, h.2.2.2.1, h.2.2.2.2⟩
      · rintro (h | h)
        · exact Or.inl (Or.inl h)
        · by_cases hz : z1 = z
          · exact Or.inl (Or.inr ⟨h.1, hz, h.2.2.2.1, h.2.2.2.2⟩)
          · exact Or.inr ⟨h.1, by omega, by omega, h.2.2.2.1, h.2.2.2.2⟩

theorem generate_ao_y_loop_spec (junk : Nat → Int) (b0 : VoxelBuffer)
    (hm : b0.margin_start = 0 ∧ b0.margin_end = 0) (nx nz : Nat) :
    ∀ (n : Nat) (y : Int) (b : VoxelBuffer) (P : Int → Int → Int → Prop), ao_inv b0 b P →
      (∀ x1 y1 z1 : Int, y ≤ y1 → y1 < y + n → 1 ≤ z1 → z1 < 1 + nz → 1 ≤ x1 → x1 < 1 + nx →
        interior b0 x1 y1 z1) →
      ∃ b1, generate_ao_y_loop junk nx nz y n b = Outcome.ok b1 ∧
        ao_inv b0 b1 (fun x1 y1 z1 =>
          P x1 y1 z1 ∨
            (y ≤ y1 ∧ y1 < y + n ∧ 1 ≤ z1 ∧ z1 < 1 + nz ∧ 1 ≤ x1 ∧ x1 < 1 + nx)) := by
  intro n
  induction n with
  | zero =>
    intro y b P hinv _
    refine ⟨b, rfl, ao_inv_congr b0 b P _ (fun x1 y1 z1 => ?_) hinv⟩
    constructor
    · exact Or.inl
    · rintro (h | h)
      · exact h
      · omega
  | succ n ih =>
    intro y b P hinv hint
    obtain ⟨b2, h2, hinv2⟩ :=
      generate_ao_z_loop_spec junk b0 hm nx y nz 1 b P hinv
        (fun x1 z1 ha hb hc hd => hint x1 y z1 (Int.le_refl y) (by omega) ha hb hc hd)
    obtain ⟨b1, h1, hinv1⟩ :=
      ih (y + 1) b2 _ hinv2
        (fun x1 y1 z1 ha hb hc hd he hf => hint x1 y1 z1 (by omega) (by omega) hc hd he hf)
    refine ⟨b1, ?_, ao_inv_congr b0 b1 _ _ (fun x1 y1 z1 => ?_) hinv1⟩
    · unfold generate_ao_y_loop
      rw [h2, next_ok, h1]
    · constructor
      · rintro ((h | h) | h)
        · exact Or.inl h
        · exact Or.inr ⟨by omega, by omega, h.2.1, h.2.2.1, h.2.2.2.1, h.2.2.2.2⟩
        · exact Or.inr ⟨by omega, by omega, h.2.2⟩
      · rintro (h | h)
        · exact Or.inl (Or.inl h)
        · by_cases hy : y1 = y
          · exact Or.inl (Or.inr ⟨hy, h.2.2.1, h.2.2.2.1, h.2.2.2.2.1, h.2.2.2.2.2⟩)
          · exact Or.inr ⟨by omega, by omega, h.2.2⟩

/-- C20: on a well-formed buffer with zero margins `generate_ao` returns (with an error
and no change when a size component is zero), and afterwards: at every interior position
the AO channel reads `max(0, A - I)`, where `I` is the isolevel read at the cell before
the call and `A` the sum of the isolevels read at the six axis neighbours before the call
divided by 6 and rounded down; the AO channel reads as before at every other position;
every channel other than AO, the size and the margins are unchanged. -/
theorem generate_ao_spec (junk : Nat → Int) (b : VoxelBuffer) (hwf : WF b)
    (hm : b.margin_start = 0 ∧ b.margin_end = 0) :
    ∃ b1, (generate_ao junk b = Outcome.ok b1 ∨ generate_ao junk b = Outcome.failed b1) ∧
      (∀ x y z : Int, interior b x y z →
        ∃ i0 i1 i2 i3 i4 i5 i6 : Int,
          get_voxel b x y z CHANNEL_ISOLEVEL = Outcome.ok i0 ∧
          get_voxel b (x + 1) y z CHANNEL_ISOLEVEL = Outcome.ok i1 ∧
          get_voxel b (x - 1) y z CHANNEL_ISOLEVEL = Outcome.ok i2 ∧
          get_voxel b x (y + 1) z CHANNEL_ISOLEVEL = Outcome.ok i3 ∧
          get_voxel b x (y - 1) z CHANNEL_ISOLEVEL = Outcome.ok i4 ∧
          get_voxel b x y (z + 1) CHANNEL_ISOLEVEL = Outcome.ok i5 ∧
          get_voxel b x y (z - 1) CHANNEL_ISOLEVEL = Outcome.ok i6 ∧
          get_voxel b1 x y z CHANNEL_AO =
            Outcome.ok (max 0 ((i1 + i2 + i3 + i4 + i5 + i6) / 6 - i0))) ∧
      (∀ x y z : Int, ¬ interior b x y z →
        get_voxel b1 x y z CHANNEL_AO = get_voxel b x y z CHANNEL_AO) ∧
      (∀ c, c ≠ CHANNEL_AO → chan b1 c = chan b c) ∧
      b1.size = b.size ∧ b1.margin_start = b.margin_start ∧ b1.margin_end = b.margin_end := by
  have hc : CHANNEL_ISOLEVEL < MAX_CHANNELS := by decide
  have hinv0 : ao_inv b b (fun _ _ _ => False) :=
    ⟨hwf, rfl, rfl, rfl, fun _ _ => rfl, fun _ _ _ => ⟨fun h => absurd h id, fun _ => rfl⟩⟩
  -- the state after the call, related to the initial state by the invariant
  have hrun : ∃ b1, (generate_ao junk b = Outcome.ok b1 ∨ generate_ao junk b = Outcome.failed b1) ∧
      ao_inv b b1 (fun x1 y1 z1 => interior b x1 y1 z1) := by
    unfold generate_ao
    by_cases hz : b.size.x = 0 ∨ b.size.y = 0 ∨ b.size.z = 0
    · rw [if_pos hz]
      refine ⟨b, Or.inr rfl, ao_inv_congr b b _ _ (fun x1 y1 z1 => ?_) hinv0⟩
      unfold interior
      constructor
      · intro h; exact absurd h id
      · intro h; omega
    · rw [if_neg hz]
      obtain ⟨b1, h1, hinv1⟩ :=
        generate_ao_y_loop_spec junk b hm (b.size.x - 1 - 1).toNat (b.size.z - 1 - 1).toNat
          (b.size.y - 1 - 1).toNat 1 b _ hinv0
          (fun x1 y1 z1 ha hb hc hd he hf => by unfold interior; omega)
      refine ⟨b1, Or.inl h1, ao_inv_congr b b1 _ _ (fun x1 y1 z1 => ?_) hinv1⟩
      unfold interior
      constructor
      · rintro (h | h)
        · exact absurd h id
        · omega
      · intro h
        exact Or.inr (by omega)
  obtain ⟨b1, hres, _, hs, hms, hme, hch, hao⟩ := hrun
  refine ⟨b1, hres, ?_, fun x y z hn => (hao x y z).2 hn, hch, hs, hms, hme⟩
  intro x y z hint
  obtain ⟨i0, h0, c0⟩ := get_voxel_byte b hwf x y z CHANNEL_ISOLEVEL hc
  obtain ⟨i1, h1, c1⟩ := get_voxel_byte b hwf (x + 1) y z CHANNEL_ISOLEVEL hc
  obtain ⟨i2, h2, c2⟩ := get_voxel_byte b hwf (x - 1) y z CHANNEL_ISOLEVEL hc
  obtain ⟨i3, h3, c3⟩ := get_voxel_byte b hwf x (y + 1) z CHANNEL_ISOLEVEL hc
  obtain ⟨i4, h4, c4⟩ := get_voxel_byte b hwf x (y - 1) z CHANNEL_ISOLEVEL hc
  obtain ⟨i5, h5, c5⟩ := get_voxel_byte b hwf x y (z + 1) CHANNEL_ISOLEVEL hc
  obtain ⟨i6, h6, c6⟩ := get_voxel_byte b hwf x y (z - 1) CHANNEL_ISOLEVEL hc
  refine ⟨i0, i1, i2, i3, i4, i5, i6, h0, h1, h2, h3, h4, h5, h6, ?_⟩
  rw [(hao x y z).1 hint]
  congr 1
  unfold is_byte at c0 c1 c2 c3 c4 c5 c6
  unfold ao_value
  simp only [h0, h1, h2, h3, h4, h5, h6, Outcome.getD]
  rw [Int.tdiv_eq_ediv (by omega) (by omega)]
  split <;> omega


/-! ## Evaluations at concrete states: boxes, uniformity, ambient occlusion -/

/-- C11, at a concrete state: the position `(2,0,0)` is outside the `2x1x1` buffer
`sample_pair`. -/
theorem set_voxel_out_of_bounds_witness :
    set_voxel stale_mem sample_pair 9 2 0 0 0 = Outcome.failed sample_pair ∧
    try_set_voxel stale_mem sample_pair 2 0 0 9 0 = Outcome.ok sample_pair :=
  set_voxel_out_of_bounds stale_mem sample_pair 9 2 0 0 0 (by decide) (by decide)

/-- C12, at a concrete state: the position `(1,0,0)` of `sample_pair`. -/
theorem try_set_voxel_same_as_set_voxel_witness :
    WF sample_pair ∧
    ∃ b1, set_voxel stale_mem sample_pair 9 1 0 0 0 = Outcome.ok b1 ∧
      try_set_voxel stale_mem sample_pair 1 0 0 9 0 = Outcome.ok b1 :=
  ⟨by decide,
    try_set_voxel_same_as_set_voxel stale_mem sample_pair (by decide) 9 1 0 0 0 (by decide)
      (by decide)⟩

/-- C13, at a concrete state: writing the default `0` and the byte `9` at `(1,1,1)` of the
unallocated channel `3` of a fresh `2x2x2` buffer. -/
theorem set_voxel_on_unallocated_witness :
    set_voxel stale_mem (blank 2 2 2) (chan (blank 2 2 2) 3).defval 1 1 1 3 =
      Outcome.ok (blank 2 2 2) ∧
    ∃ d, set_voxel stale_mem (blank 2 2 2) 9 1 1 1 3 =
        Outcome.ok (set_chan (blank 2 2 2) 3
          { data := some d, defval := (chan (blank 2 2 2) 3).defval }) ∧
      d.length = get_volume (blank 2 2 2) ∧
      d[index (blank 2 2 2) (1 + ((blank 2 2 2).margin_start + (blank 2 2 2).margin_end))
        (1 + ((blank 2 2 2).margin_start + (blank 2 2 2).margin_end))
        (1 + ((blank 2 2 2).margin_start + (blank 2 2 2).margin_end))]? = some 9 ∧
      ∀ k, k < get_volume (blank 2 2 2) →
        k ≠ index (blank 2 2 2) (1 + ((blank 2 2 2).margin_start + (blank 2 2 2).margin_end))
          (1 + ((blank 2 2 2).margin_start + (blank 2 2 2).margin_end))
          (1 + ((blank 2 2 2).margin_start + (blank 2 2 2).margin_end)) →
        d[k]? = some (chan (blank 2 2 2) 3).defval :=
  ⟨(set_voxel_on_unallocated stale_mem (blank 2 2 2) (by decide) 1 1 1 3 (by decide) (by decide)
      (by decide)).1,
    (set_voxel_on_unallocated stale_mem (blank 2 2 2) (by decide) 1 1 1 3 (by decide) (by decide)
      (by decide)).2 9 (by decide) (by decide)⟩

/-- C14, at a concrete state: writing `9` at `(1,0,0)` of channel `0` of `sample_pair`. -/
theorem set_voxel_frame_witness :
    ∃ b1, set_voxel stale_mem sample_pair 9 1 0 0 0 = Outcome.ok b1 ∧
      (∀ x1 y1 z1 : Int, ¬ (x1 = 1 ∧ y1 = 0 ∧ z1 = 0) →
        get_voxel b1 x1 y1 z1 0 = get_voxel sample_pair x1 y1 z1 0) ∧
      (∀ c1, c1 ≠ 0 → ∀ x1 y1 z1 : Int,
        get_voxel b1 x1 y1 z1 c1 = get_voxel sample_pair x1 y1 z1 c1) ∧
      b1.size = sample_pair.size ∧ b1.margin_start = sample_pair.margin_start ∧
      b1.margin_end = sample_pair.margin_end :=
  set_voxel_frame stale_mem sample_pair (by decide) 9 1 0 0 0 (by decide) (by decide)

/-- C15, at a concrete state: the box from `(0,0,0)` to `(0,5,5)` has no extent along
`x`. -/
theorem fill_area_zero_extent_witness :
    fill_area stale_mem sample_pair 9 { x := 0, y := 0, z := 0 } { x := 0, y := 5, z := 5 } 0 =
      Outcome.ok sample_pair :=
  (fill_area_zero_extent stale_mem sample_pair 9 { x := 0, y := 0, z := 0 }
    { x := 0, y := 5, z := 5 } 0 (by decide)).1 (Or.inl (by decide))

/-- C16, at a concrete state: filling the box from `(1,0,1)` to `(3,2,2)` of the
unallocated channel `2` of a fresh `3x3x3` buffer with `9`. -/
theorem fill_area_fills_box_witness :
    WF (blank 3 3 3) ∧
    box_inside (blank 3 3 3).size { x := 1, y := 0, z := 1 } { x := 3, y := 2, z := 2 } ∧
    ∃ b1, fill_area stale_mem (blank 3 3 3) 9 { x := 1, y := 0, z := 1 }
        { x := 3, y := 2, z := 2 } 2 = Outcome.ok b1 ∧ b1.size = (blank 3 3 3).size ∧
      ∀ x y z : Int, validate_pos (blank 3 3 3) x y z = true →
        (in_box { x := 1, y := 0, z := 1 } { x := 3, y := 2, z := 2 } x y z →
          stored b1 2 x y z = some 9) ∧
        (¬ in_box { x := 1, y := 0, z := 1 } { x := 3, y := 2, z := 2 } x y z →
          stored b1 2 x y z = stored (blank 3 3 3) 2 x y z) :=
  ⟨by decide, by decide,
    fill_area_fills_box stale_mem (blank 3 3 3) (by decide) 9 { x := 1, y := 0, z := 1 }
      { x := 3, y := 2, z := 2 } 2 (by decide) (by decide) (by decide)⟩

/-- C17, at a concrete state: channel `0` of `sample_pair` holds the bytes `1, 2`. -/
theorem is_uniform_iff_witness :
    ∃ u, is_uniform sample_pair 0 = Outcome.ok u ∧
      (u = true ↔ ∀ k, k < get_volume sample_pair → [(1 : Int), 2][k]? = [(1 : Int), 2][0]?) :=
  (is_uniform_iff sample_pair (by decide) 0 (by decide)).2 [1, 2] (by decide)

/-- C18, at a concrete state: channel `0` of `sample_even` is allocated and uniform. -/
theorem compress_uniform_channels_effect_witness :
    WF sample_even ∧
    ∃ b1, compress_uniform_channels sample_even = Outcome.ok b1 ∧
      ∀ c, c < MAX_CHANNELS →
        ((chan sample_even c).data = none → chan b1 c = chan sample_even c) ∧
        (∀ d, (chan sample_even c).data = some d → is_uniform sample_even c = Outcome.ok false →
          chan b1 c = chan sample_even c) ∧
        (∀ d, (chan sample_even c).data = some d → is_uniform sample_even c = Outcome.ok true →
          ∃ v, (∀ k, k < get_volume sample_even → d[k]? = some v) ∧
            chan b1 c = { data := none, defval := v }) ∧
        (∀ d, (chan b1 c).data = some d → is_uniform b1 c = Outcome.ok false) :=
  ⟨by decide, compress_uniform_channels_effect sample_even (by decide)⟩

/-- C19: evaluation of the region `copy_from` inside its contract. First call: the
destination `sample_pair` has channel `0` allocated with the bytes `1, 2` and default `0`,
the source is a fresh `2x1x1` buffer whose channel `0` is unallocated with the same default
`0`, and the box is the single cell `(0,0,0)`; the call returns with the destination
unchanged, so the destination still holds `1` where the source holds `0`. Second call: the
box is the whole `2x1x1` source `sample_pair` and the destination is a fresh buffer of the
same size; the call runs the whole-buffer `copy_from`, which fails on equal sizes, and the
destination is unchanged. -/
theorem copy_from_area_misses_cases :
    copy_from_area stale_mem sample_pair (blank 2 1 1) { x := 0, y := 0, z := 0 }
        { x := 1, y := 1, z := 1 } { x := 0, y := 0, z := 0 } 0 = Outcome.ok sample_pair ∧
    stored sample_pair 0 0 0 0 = some 1 ∧
    stored (blank 2 1 1) 0 0 0 0 = some 0 ∧
    copy_from_area stale_mem (blank 2 1 1) sample_pair { x := 0, y := 0, z := 0 }
        { x := 2, y := 1, z := 1 } { x := 0, y := 0, z := 0 } 0 = Outcome.ok (blank 2 1 1) ∧
    stored (blank 2 1 1) 0 1 0 0 = some 0 ∧
    stored sample_pair 0 1 0 0 = some 2 := by
  decide

/-- C20, at a concrete state: `sample_cube` is a `3x3x3` buffer without margins whose
isolevel channel holds `0, ..., 26`; its only interior cell is `(1,1,1)`. -/
theorem generate_ao_spec_witness :
    WF sample_cube ∧
    ∃ b1, (generate_ao stale_mem sample_cube = Outcome.ok b1 ∨
        generate_ao stale_mem sample_cube = Outcome.failed b1) ∧
      (∀ x y z : Int, interior sample_cube x y z →
        ∃ i0 i1 i2 i3 i4 i5 i6 : Int,
          get_voxel sample_cube x y z CHANNEL_ISOLEVEL = Outcome.ok i0 ∧
          get_voxel sample_cube (x + 1) y z CHANNEL_ISOLEVEL = Outcome.ok i1 ∧
          get_voxel sample_cube (x - 1) y z CHANNEL_ISOLEVEL = Outcome.ok i2 ∧
          get_voxel sample_cube x (y + 1) z CHANNEL_ISOLEVEL = Outcome.ok i3 ∧
          get_voxel sample_cube x (y - 1) z CHANNEL_ISOLEVEL = Outcome.ok i4 ∧
          get_voxel sample_cube x y (z + 1) CHANNEL_ISOLEVEL = Outcome.ok i5 ∧
          get_voxel sample_cube x y (z - 1) CHANNEL_ISOLEVEL = Outcome.ok i6 ∧
          get_voxel b1 x y z CHANNEL_AO =
            Outcome.ok (max 0 ((i1 + i2 + i3 + i4 + i5 + i6) / 6 - i0))) ∧
      (∀ x y z : Int, ¬ interior sample_cube x y z →
        get_voxel b1 x y z CHANNEL_AO = get_voxel sample_cube x y z CHANNEL_AO) ∧
      (∀ c, c ≠ CHANNEL_AO → chan b1 c = chan sample_cube c) ∧
      b1.size = sample_cube.size ∧ b1.margin_start = sample_cube.margin_start ∧
      b1.margin_end = sample_cube.margin_end :=
  ⟨by decide, generate_ao_spec stale_mem sample_cube (by decide) ⟨rfl, rfl⟩⟩


/-! ## Indexing, byte storage, the library -/

/-- C25: `index(x,y,z) = y + size.y*(x + size.x*z)` maps every valid position to a value
below the volume `size.x*size.y*size.z` and maps distinct valid positions to distinct
values; hence in a well-formed buffer the access `data[index(x,y,z)]` behind the bounds
check of `get_voxel` and `set_voxel` is inside the array of any allocated channel. -/
theorem index_in_range_and_injective (b : VoxelBuffer) (x1 y1 z1 x2 y2 z2 : Int)
    (h1 : validate_pos b x1 y1 z1 = true) (h2 : validate_pos b x2 y2 z2 = true) :
    index b x1 y1 z1 = (y1 + b.size.y * (x1 + b.size.x * z1)).toNat ∧
    (index b x1 y1 z1 : Int) = y1 + b.size.y * (x1 + b.size.x * z1) ∧
    get_volume b = (b.size.x * b.size.y * b.size.z).toNat ∧
    index b x1 y1 z1 < get_volume b ∧
    (index b x1 y1 z1 = index b x2 y2 z2 → x1 = x2 ∧ y1 = y2 ∧ z1 = z2) ∧
    (WF b → ∀ c, c < MAX_CHANNELS → ∀ d, (chan b c).data = some d →
      index b x1 y1 z1 < d.length) := by
  refine ⟨rfl, index_cast b x1 y1 z1 h1, rfl, index_lt_volume b x1 y1 z1 h1,
    index_injective b x1 y1 z1 x2 y2 z2 h1 h2, ?_⟩
  intro hwf c hc d hd
  rw [hwf.data_length c hc d hd]
  exact index_lt_volume b x1 y1 z1 h1

/-- C25, at a concrete state: the positions `(1,2,0)` and `(2,1,1)` of `sample_cube`. -/
theorem index_in_range_and_injective_witness :
    index sample_cube 1 2 0 = (2 + sample_cube.size.y * (1 + sample_cube.size.x * 0)).toNat ∧
    (index sample_cube 1 2 0 : Int) = 2 + sample_cube.size.y * (1 + sample_cube.size.x * 0) ∧
    get_volume sample_cube =
      (sample_cube.size.x * sample_cube.size.y * sample_cube.size.z).toNat ∧
    index sample_cube 1 2 0 < get_volume sample_cube ∧
    (index sample_cube 1 2 0 = index sample_cube 2 1 1 →
      (1 : Int) = 2 ∧ (2 : Int) = 1 ∧ (0 : Int) = 1) ∧
    (WF sample_cube → ∀ c, c < MAX_CHANNELS → ∀ d, (chan sample_cube c).data = some d →
      index sample_cube 1 2 0 < d.length) :=
  index_in_range_and_injective sample_cube 1 2 0 2 1 1 (by decide) (by decide)

/-- C26: on a well-formed buffer, for a channel `c < 10`, a position whose offset position
is valid and any integer `v` (negative or above 255 included), `set_voxel(v, ...)` returns
normally and `get_voxel` at that position then returns `v` reduced modulo 256, a value in
`0..255`. -/
theorem get_voxel_set_voxel_mod_256 (junk : Nat → Int) (b : VoxelBuffer) (hwf : WF b)
    (v x y z : Int) (c : Nat) (hc : c < MAX_CHANNELS)
    (hin : validate_pos b (x + (b.margin_start + b.margin_end))
      (y + (b.margin_start + b.margin_end)) (z + (b.margin_start + b.margin_end)) = true) :
    ∃ b1, set_voxel junk b v x y z c = Outcome.ok b1 ∧
      get_voxel b1 x y z c = Outcome.ok (v % 256) ∧ 0 ≤ v % 256 ∧ v % 256 < 256 := by
  obtain ⟨b1, h1, _, _, _, _, _, hget, _⟩ := set_voxel_effect junk b hwf v x y z c hc hin
  exact ⟨b1, h1, hget, by omega, by omega⟩

/-- C26, at a concrete state: writing `-1` at `(1,0,0)` of channel `0` of `sample_pair`
reads back as `255`. -/
theorem get_voxel_set_voxel_mod_256_witness :
    WF sample_pair ∧
    ∃ b1, set_voxel stale_mem sample_pair (-1) 1 0 0 0 = Outcome.ok b1 ∧
      get_voxel b1 1 0 0 0 = Outcome.ok ((-1) % 256) ∧ 0 ≤ (-1 : Int) % 256 ∧
      (-1 : Int) % 256 < 256 :=
  ⟨by decide,
    get_voxel_set_voxel_mod_256 stale_mem sample_pair (by decide) (-1) 1 0 0 0 (by decide)
      (by decide)⟩

/-- C27: `set_voxel_surface(index, value)` with `index` equal to the current number of
surfaces indexes the vector outside its size: the test `size() < index` does not resize
the vector in this case. Shown for every surface list, and evaluated on the empty list
with `index = 0`; for comparison, `index = 1` on the empty list resizes and succeeds. -/
theorem set_voxel_surface_at_size_crashes :
    (∀ (s : SurfaceList) (value : Option Nat),
      set_voxel_surface s (s.voxel_surfaces.length : Int) value = Outcome.crash) ∧
    set_voxel_surface { voxel_surfaces := [], attached := [] } 0 (some 7) = Outcome.crash ∧
    set_voxel_surface { voxel_surfaces := [], attached := [] } 1 (some 7) =
      Outcome.ok { voxel_surfaces := [none, some 7], attached := [7] } := by
  refine ⟨?_, by decide, by decide⟩
  intro s value
  unfold set_voxel_surface
  have h1 : ¬ ((s.voxel_surfaces.length : Int) < 0) := by omega
  simp only [h1, if_false, Int.lt_irrefl, Int.toNat_ofNat]
  rw [List.getElem?_eq_none (Nat.le_refl _)]
  rfl

theorem props_find_assign (m : List (Int × PropData)) (key : Int) (value : PropData) :
    props_find (props_assign m key value) key = some value := by
  induction m with
  | nil => simp [props_assign, props_find]
  | cons e rest ih =>
    obtain ⟨k, v⟩ := e
    by_cases hk : k = key
    · simp [props_assign, props_find, hk]
    · simp [props_assign, props_find, hk, ih]

/-- C28, counterexample: on an empty map, `set_prop(1, value)` with a prop whose own id
is `2` stores the prop under the key `2`; `get_prop(1)` returns the null reference. -/
theorem set_prop_ignores_id :
    set_prop [] 1 (some { id := 2, name := 0 }) = Outcome.ok [(2, { id := 2, name := 0 })] ∧
    get_prop [(2, { id := 2, name := 0 })] 1 = none ∧
    get_prop [(2, { id := 2, name := 0 })] 2 = some { id := 2, name := 0 } := by
  decide

/-- C28 (amended): for every prop map, id and valid prop value, `set_prop(id, value)`
returns normally and afterwards `get_prop(value.get_id())` returns `value`; so
`get_prop(id)` returns `value` whenever `id` is the prop's own id. -/
theorem get_prop_set_prop (m : List (Int × PropData)) (id : Int) (value : PropData) :
    ∃ m1, set_prop m id (some value) = Outcome.ok m1 ∧
      get_prop m1 value.id = some value ∧
      (value.id = id → get_prop m1 id = some value) := by
  refine ⟨props_assign m value.id value, rfl, props_find_assign m value.id value, ?_⟩
  intro h
  rw [← h]
  exact props_find_assign m value.id value

/-- C28 (amended), at a concrete state: a prop of id `3` set through `set_prop(3, ...)`
on a map that already holds an entry for `3`. -/
theorem get_prop_set_prop_witness :
    get_prop (props_assign [(3, { id := 3, name := 0 })] 3 { id := 3, name := 1 }) 3 =
      some { id := 3, name := 1 } :=
  (get_prop_set_prop [(3, { id := 3, name := 0 })] 3 { id := 3, name := 1 }).elim
    (fun m1 h => by
      have h1 := h.1
      simp only [set_prop, ofMem_some, Outcome.ok.injEq] at h1
      rw [h1]
      exact h.2.2 rfl)


/-! ## The ambient-occlusion scenario and `clear_lights` -/

/-- On a well-formed buffer with zero margins and no zero size component `generate_ao`
returns normally, and the resulting state is related to the initial one by the invariant
of the loops, the processed cells being the interior cells. -/
theorem generate_ao_run (junk : Nat → Int) (b : VoxelBuffer) (hwf : WF b)
    (hm : b.margin_start = 0 ∧ b.margin_end = 0)
    (hsz : ¬ (b.size.x = 0 ∨ b.size.y = 0 ∨ b.size.z = 0)) :
    ∃ b1, generate_ao junk b = Outcome.ok b1 ∧
      ao_inv b b1 (fun x1 y1 z1 => interior b x1 y1 z1) := by
  have hinv0 : ao_inv b b (fun _ _ _ => False) :=
    ⟨hwf, rfl, rfl, rfl, fun _ _ => rfl, fun _ _ _ => ⟨fun h => absurd h id, fun _ => rfl⟩⟩
  unfold generate_ao
  rw [if_neg hsz]
  obtain ⟨b1, h1, hinv1⟩ :=
    generate_ao_y_loop_spec junk b hm (b.size.x - 1 - 1).toNat (b.size.z - 1 - 1).toNat
      (b.size.y - 1 - 1).toNat 1 b _ hinv0
      (fun x1 y1 z1 ha hb hc hd he hf => by unfold interior; omega)
  refine ⟨b1, h1, ao_inv_congr b b1 _ _ (fun x1 y1 z1 => ?_) hinv1⟩
  unfold interior
  constructor
  · rintro (h | h)
    · exact absurd h id
    · omega
  · intro h
    exact Or.inr (by omega)

/-- C21, counterexample: `ao_scene` is the state reached from a fresh buffer by
`create(4,4,4,0,0)`, `fill(1, CHANNEL_ISOLEVEL)` and `set_voxel(0, 2,2,2,
CHANNEL_ISOLEVEL)`; after `generate_ao` the AO value is `0` at each of the six axis
neighbours of `(2,2,2)` and `1` at `(2,2,2)` itself. -/
theorem generate_ao_scene_neighbours_zero :
    ((create stale_mem (blank 0 0 0) 4 4 4 0 0).next fun b =>
      (fill stale_mem b 1 CHANNEL_ISOLEVEL).next fun b1 =>
        set_voxel stale_mem b1 0 2 2 2 CHANNEL_ISOLEVEL) = Outcome.ok ao_scene ∧
    (generate_ao stale_mem ao_scene).next (fun b => get_voxel b 1 2 2 CHANNEL_AO) =
      Outcome.ok 0 ∧
    (generate_ao stale_mem ao_scene).next (fun b => get_voxel b 3 2 2 CHANNEL_AO) =
      Outcome.ok 0 ∧
    (generate_ao stale_mem ao_scene).next (fun b => get_voxel b 2 1 2 CHANNEL_AO) =
      Outcome.ok 0 ∧
    (generate_ao stale_mem ao_scene).next (fun b => get_voxel b 2 3 2 CHANNEL_AO) =
      Outcome.ok 0 ∧
    (generate_ao stale_mem ao_scene).next (fun b => get_voxel b 2 2 1 CHANNEL_AO) =
      Outcome.ok 0 ∧
    (generate_ao stale_mem ao_scene).next (fun b => get_voxel b 2 2 3 CHANNEL_AO) =
      Outcome.ok 0 ∧
    (generate_ao stale_mem ao_scene).next (fun b => get_voxel b 2 2 2 CHANNEL_AO) =
      Outcome.ok 1 := by
  decide

/-- C21 (amended): on the `4x4x4` buffer with margins 0/0 whose isolevel channel is `1`
everywhere except `0` at `(2,2,2)` and whose AO channel starts at default `0`,
`generate_ao` returns normally and afterwards the AO value is `1` at `(2,2,2)` and `0` at
every other position, the six axis neighbours of `(2,2,2)` included. -/
theorem generate_ao_scene (junk : Nat → Int) :
    ∃ b1, generate_ao junk ao_scene = Outcome.ok b1 ∧
      ∀ x y z : Int,
        get_voxel b1 x y z CHANNEL_AO =
          Outcome.ok (if x = 2 ∧ y = 2 ∧ z = 2 then 1 else 0) := by
  obtain ⟨b1, h1, _, _, _, _, _, hao⟩ :=
    generate_ao_run junk ao_scene (by decide) ⟨rfl, rfl⟩ (by decide)
  refine ⟨b1, h1, ?_⟩
  intro x y z
  have hsx : ao_scene.size.x = 4 := rfl
  have hsy : ao_scene.size.y = 4 := rfl
  have hsz : ao_scene.size.z = 4 := rfl
  by_cases hint : interior ao_scene x y z
  · rw [(hao x y z).1 hint]
    unfold interior at hint
    rw [hsx, hsy, hsz] at hint
    obtain ⟨hx1, hx2, hy1, hy2, hz1, hz2⟩ := hint
    have hx : x = 1 ∨ x = 2 := by omega
    have hy : y = 1 ∨ y = 2 := by omega
    have hz : z = 1 ∨ z = 2 := by omega
    rcases hx with rfl | rfl <;> rcases hy with rfl | rfl <;> rcases hz with rfl | rfl <;>
      decide
  · rw [(hao x y z).2 hint,
      get_voxel_unallocated ao_scene x y z CHANNEL_AO (by decide) (by decide)]
    have hne : ¬ (x = 2 ∧ y = 2 ∧ z = 2) := by
      rintro ⟨rfl, rfl, rfl⟩
      exact hint (by decide)
    rw [if_neg hne]
    rfl


/-- Effect of `fill` with a byte on a well-formed buffer: the call returns normally with a
well-formed buffer of the same size and margins, the other channels are unchanged, and
channel `c` reads as the byte at every position whose offset position is valid, and at
every position when the channel was unallocated or had that byte as default. -/
theorem fill_effect (junk : Nat → Int) (b : VoxelBuffer) (hwf : WF b) (v : Int) (c : Nat)
    (hc : c < MAX_CHANNELS) (hv : is_byte v) :
    ∃ b1, fill junk b v c = Outcome.ok b1 ∧ WF b1 ∧ b1.size = b.size ∧
      b1.margin_start = b.margin_start ∧ b1.margin_end = b.margin_end ∧
      (∀ c1, c1 ≠ c → chan b1 c1 = chan b c1) ∧
      ∀ x y z : Int,
        (validate_pos b (x + (b.margin_start + b.margin_end))
            (y + (b.margin_start + b.margin_end)) (z + (b.margin_start + b.margin_end)) = true ∨
          (chan b c).data = none ∨ (chan b c).defval = v) →
        get_voxel b1 x y z c = Outcome.ok v := by
  have hlen : c < b.channels.length := by rw [hwf.1]; exact hc
  have hbyte : to_uint8 v = v := to_uint8_of_byte v hv
  have hwc := hwf.wf_chan c hc
  unfold fill
  simp only [hc, not_true_eq_false, if_false]
  cases hd : (chan b c).data with
  | none =>
    by_cases hdef : (chan b c).defval = v
    · simp only [hdef, if_true]
      refine ⟨b, rfl, hwf, rfl, rfl, rfl, fun _ _ => rfl, ?_⟩
      intro x y z _
      rw [get_voxel_unallocated b x y z c hc hd, hdef]
    · simp only [hdef, if_false]
      have hnone : (chan (set_chan b c { data := none, defval := to_uint8 v }) c).data = none := by
        rw [chan_set_chan_self _ _ _ hlen]
      refine ⟨_, rfl, wf_set_chan b c _ hwf ⟨is_byte_to_uint8 v, trivial⟩, rfl, rfl, rfl,
        fun c1 h1 => chan_set_chan_ne _ _ _ _ (fun e => h1 e.symm), ?_⟩
      intro x y z _
      rw [get_voxel_unallocated _ x y z c hc hnone, chan_set_chan_self _ _ _ hlen]
      exact congrArg Outcome.ok hbyte
  | some d =>
    have hvol : 0 < get_volume b := by
      have hne := hwf.data_ne_nil c hc d hd
      have hl := hwf.data_length c hc d hd
      cases d with
      | nil => exact absurd rfl hne
      | cons a t => rw [← hl]; simp
    simp only [create_channel_noinit, chan_set_chan_self _ _ _ hlen, Option.some_bind,
      set_chan_volume, set_chan_set_chan]
    rw [memset_all _ _ _ (by simp [memalloc_length, get_volume])]
    simp only [ofMem_some, hbyte]
    have hdata : chan (set_chan b c
        { data := some (List.replicate (get_volume b) v), defval := (chan b c).defval }) c =
        { data := some (List.replicate (get_volume b) v), defval := (chan b c).defval } := by
      rw [chan_set_chan_self _ _ _ hlen]
    refine ⟨_, rfl, wf_set_chan b c _ hwf (wf_channel_replicate _ _ _ hvol hwc.1 hv), rfl, rfl,
      rfl, fun c1 h1 => chan_set_chan_ne _ _ _ _ (fun e => h1 e.symm), ?_⟩
    intro x y z h
    cases hq : validate_pos b (x + (b.margin_start + b.margin_end))
        (y + (b.margin_start + b.margin_end)) (z + (b.margin_start + b.margin_end)) with
    | true =>
      have hidx := index_lt_volume b _ _ _ hq
      rw [get_voxel_inside _ x y z c hc _ (by rw [hdata]) (by simpa using hq)]
      simp [List.getElem?_replicate, hidx]
    | false =>
      rcases h with h | h | h
      · rw [hq] at h; cases h
      · cases h
      · rw [get_voxel_outside _ x y z c hc (by simpa using hq), hdata]
        exact congrArg Outcome.ok h

theorem validate_pos_congr (b1 b2 : VoxelBuffer) (x y z : Int) (hs : b1.size = b2.size) :
    validate_pos b1 x y z = validate_pos b2 x y z := by
  unfold validate_pos
  rw [hs]

/-- C22, counterexample: the red light channel of `sample_lamp` is allocated with
default `5`; after `clear_lights` the `get_voxel` at the out-of-bounds position `(1,0,0)`
returns `5` on that channel, while the position `(0,0,0)` reads `0`. -/
theorem clear_lights_keeps_default_outside :
    WF sample_lamp ∧
    (clear_lights stale_mem sample_lamp).next
      (fun b => get_voxel b 1 0 0 CHANNEL_LIGHT_COLOR_R) = Outcome.ok 5 ∧
    (clear_lights stale_mem sample_lamp).next
      (fun b => get_voxel b 0 0 0 CHANNEL_LIGHT_COLOR_R) = Outcome.ok 0 := by
  decide

/-- C22 (amended): on a well-formed buffer `clear_lights` returns normally, and afterwards
`get_voxel` returns `0` on each of the three light channels at every position whose offset
position is valid, and at every position at all when the channel was unallocated or had
the default `0` before the call (as in every state reached from a fresh buffer by
`add_light`, which never changes a default). -/
theorem clear_lights_zero (junk : Nat → Int) (b : VoxelBuffer) (hwf : WF b) :
    ∃ b1, clear_lights junk b = Outcome.ok b1 ∧
      ∀ c, (c = CHANNEL_LIGHT_COLOR_R ∨ c = CHANNEL_LIGHT_COLOR_G ∨
          c = CHANNEL_LIGHT_COLOR_B) →
        ∀ x y z : Int,
          (validate_pos b (x + (b.margin_start + b.margin_end))
              (y + (b.margin_start + b.margin_end)) (z + (b.margin_start + b.margin_end)) =
              true ∨
            (chan b c).data = none ∨ (chan b c).defval = 0) →
          get_voxel b1 x y z c = Outcome.ok 0 := by
  have hz : is_byte 0 := by decide
  obtain ⟨b1, h1, hwf1, hs1, hms1, hme1, hch1, hget1⟩ :=
    fill_effect junk b hwf 0 CHANNEL_LIGHT_COLOR_R (by decide) hz
  obtain ⟨b2, h2, hwf2, hs2, hms2, hme2, hch2, hget2⟩ :=
    fill_effect junk b1 hwf1 0 CHANNEL_LIGHT_COLOR_G (by decide) hz
  obtain ⟨b3, h3, _, hs3, hms3, hme3, hch3, hget3⟩ :=
    fill_effect junk b2 hwf2 0 CHANNEL_LIGHT_COLOR_B (by decide) hz
  refine ⟨b3, ?_, ?_⟩
  · unfold clear_lights
    rw [h1, next_ok, h2, next_ok, h3, next_ok]
  · intro c hc x y z h
    rcases hc with rfl | rfl | rfl
    · rw [get_voxel_congr b3 b1 x y z _
        ((hch3 _ (by decide)).trans (hch2 _ (by decide))) (hs3.trans hs2)
        (hms3.trans hms2) (hme3.trans hme2)]
      exact hget1 x y z h
    · rw [get_voxel_congr b3 b2 x y z _ (hch3 _ (by decide)) hs3 hms3 hme3]
      apply hget2 x y z
      rw [hms1, hme1, validate_pos_congr b1 b _ _ _ hs1, hch1 _ (by decide)]
      exact h
    · apply hget3 x y z
      rw [hms2, hme2, hms1, hme1, validate_pos_congr b2 b _ _ _ (hs2.trans hs1),
        hch2 _ (by decide), hch1 _ (by decide)]
      exact h


/-! ## The cubic mesher -/

theorem add_corners_spec {A : Type} (cp : CubePoints A) (x y z : Int) (face : Nat) :
    ∀ (n i : Nat) (s : MeshSink A),
      (add_corners cp x y z face i n s).vertices.length = s.vertices.length + n ∧
      (add_corners cp x y z face i n s).normals.length = s.normals.length + n ∧
      (add_corners cp x y z face i n s).colors.length = s.colors.length + n ∧
      (add_corners cp x y z face i n s).uvs.length = s.uvs.length + n ∧
      (add_corners cp x y z face i n s).uv2s.length = s.uv2s.length + n ∧
      (add_corners cp x y z face i n s).indices = s.indices := by
  intro n
  induction n with
  | zero => intro i s; exact ⟨rfl, rfl, rfl, rfl, rfl, rfl⟩
  | succ n ih =>
    intro i s
    unfold add_corners
    obtain ⟨h1, h2, h3, h4, h5, h6⟩ := ih (i + 1)
      (add_vertex (add_uv2 (add_uv (add_color (add_normal s (cp.normal x y z face i))
        (cp.color x y z face i)) (cp.uv x y z face i)) (cp.uv x y z face i))
        (cp.vertex x y z face i))
    simp only [add_vertex, add_uv2, add_uv, add_color, add_normal, List.length_append,
      List.length_singleton] at h1 h2 h3 h4 h5 h6
    simp only [add_vertex, add_uv2, add_uv, add_color, add_normal]
    refine ⟨by omega, by omega, by omega, by omega, by omega, h6⟩

/-- One visible face: six indices `n+2, n+1, n+0, n+3, n+2, n+0` relative to the vertex
count `n` before the face, then four entries in every attribute sequence. -/
theorem add_face_spec {A : Type} (cp : CubePoints A) (x y z : Int) (face : Nat)
    (s : MeshSink A) :
    (add_face cp x y z face s).indices =
      s.indices ++ [get_vertex_count s + 2, get_vertex_count s + 1, get_vertex_count s + 0,
        get_vertex_count s + 3, get_vertex_count s + 2, get_vertex_count s + 0] ∧
    (add_face cp x y z face s).vertices.length = s.vertices.length + 4 ∧
    (add_face cp x y z face s).normals.length = s.normals.length + 4 ∧
    (add_face cp x y z face s).colors.length = s.colors.length + 4 ∧
    (add_face cp x y z face s).uvs.length = s.uvs.length + 4 ∧
    (add_face cp x y z face s).uv2s.length = s.uv2s.length + 4 := by
  have key := add_corners_spec cp x y z face 4 0
  simp only [add_face, key, add_indices, get_vertex_count, List.append_assoc,
    List.singleton_append, List.cons_append, List.nil_append, and_self]

theorem face_indices_length (k : Nat) : (face_indices k).length = 6 * k := by
  induction k with
  | zero => rfl
  | succ k ih =>
    simp only [face_indices, List.length_append, ih, List.length_cons, List.length_nil]
    omega

theorem face_indices_lt (k : Nat) : ∀ i ∈ face_indices k, i < 4 * k := by
  induction k with
  | zero => intro i h; simp [face_indices] at h
  | succ k ih =>
    intro i h
    simp only [face_indices, List.mem_append, List.mem_cons, List.mem_singleton,
      List.not_mem_nil, or_false] at h
    rcases h with h | h
    · have := ih i h
      omega
    · omega

theorem emitted_add_face {A : Type} (cp : CubePoints A) (x y z : Int) (face : Nat)
    (s : MeshSink A) (k : Nat) (h : emitted s k) : emitted (add_face cp x y z face s) (k + 1) := by
  obtain ⟨h1, h2, h3, h4, h5, h6⟩ := h
  obtain ⟨g1, g2, g3, g4, g5, g6⟩ := add_face_spec cp x y z face s
  refine ⟨by omega, by omega, by omega, by omega, by omega, ?_⟩
  rw [g1, h6, get_vertex_count, h1]
  rfl

theorem emitted_face_loop {A : Type} (cp : CubePoints A) (x y z : Int) :
    ∀ (n face : Nat) (s : MeshSink A) (k : Nat), emitted s k →
      emitted (mesh_face_loop cp x y z face n s) (k + count_faces cp x y z face n) := by
  intro n
  induction n with
  | zero => intro face s k h; exact h
  | succ n ih =>
    intro face s k h
    unfold mesh_face_loop count_faces
    cases hv : cp.is_face_visible x y z face with
    | false =>
      simp only [Bool.false_eq_true, not_false_eq_true, if_true, if_false, Nat.zero_add]
      exact ih (face + 1) s k h
    | true =>
      simp only [not_true_eq_false, if_false, if_true]
      have := ih (face + 1) _ (k + 1) (emitted_add_face cp x y z face s k h)
      rw [Nat.add_assoc] at this
      exact this

theorem emitted_cell {A : Type} (cp : CubePoints A) (x y z : Int) (s : MeshSink A) (k : Nat)
    (h : emitted s k) : emitted (mesh_cell cp x y z s) (k + count_cell cp x y z) := by
  unfold mesh_cell count_cell
  cases hp : cp.has_points x y z with
  | false =>
    simp only [Bool.false_eq_true, not_false_eq_true, if_true, if_false, Nat.add_zero]
    exact h
  | true =>
    simp only [not_true_eq_false, if_false, if_true]
    exact emitted_face_loop cp x y z _ 0 s k h

theorem emitted_x_loop {A : Type} (cp : CubePoints A) (y z : Int) :
    ∀ (n : Nat) (x : Int) (s : MeshSink A) (k : Nat), emitted s k →
      emitted (mesh_x_loop cp y z x n s) (k + count_x cp y z x n) := by
  intro n
  induction n with
  | zero => intro x s k h; exact h
  | succ n ih =>
    intro x s k h
    unfold mesh_x_loop count_x
    have := ih (x + 1) _ _ (emitted_cell cp x y z s k h)
    rw [Nat.add_assoc] at this
    exact this

theorem emitted_z_loop {A : Type} (cp : CubePoints A) (x_size y : Int) :
    ∀ (n : Nat) (z : Int) (s : MeshSink A) (k : Nat), emitted s k →
      emitted (mesh_z_loop cp x_size y z n s) (k + count_z cp x_size y z n) := by
  intro n
  induction n with
  | zero => intro z s k h; exact h
  | succ n ih =>
    intro z s k h
    unfold mesh_z_loop count_z
    have := ih (z + 1) _ _ (emitted_x_loop cp y z x_size.toNat 0 s k h)
    rw [Nat.add_assoc] at this
    exact this

theorem emitted_y_loop {A : Type} (cp : CubePoints A) (x_size z_size : Int) :
    ∀ (n : Nat) (y : Int) (s : MeshSink A) (k : Nat), emitted s k →
      emitted (mesh_y_loop cp x_size z_size y n s) (k + count_y cp x_size z_size y n) := by
  intro n
  induction n with
  | zero => intro y s k h; exact h
  | succ n ih =>
    intro y s k h
    unfold mesh_y_loop count_y
    have := ih (y + 1) _ _ (emitted_z_loop cp x_size y z_size.toNat 0 s k h)
    rw [Nat.add_assoc] at this
    exact this

/-- C24: for every chunk, each visible face appends the six indices `n+2, n+1, n+0, n+3,
n+2, n+0` (`n` the vertex count before the face) and four vertices, normals, colours, UVs
and secondary UVs; a build from an empty sink with `F` visible faces of non-empty cells
ends with `4F` entries in every attribute sequence and the `6F` indices `face_indices F`,
each smaller than the final vertex count; a single solid voxel with six visible faces
yields 24 vertices and 36 indices. -/
theorem add_chunk_counts {A : Type} (cp : CubePoints A) (x_size y_size z_size : Int) :
    (∀ (x y z : Int) (face : Nat) (s : MeshSink A),
      (add_face cp x y z face s).indices =
        s.indices ++ [get_vertex_count s + 2, get_vertex_count s + 1, get_vertex_count s + 0,
          get_vertex_count s + 3, get_vertex_count s + 2, get_vertex_count s + 0] ∧
      (add_face cp x y z face s).vertices.length = s.vertices.length + 4 ∧
      (add_face cp x y z face s).normals.length = s.normals.length + 4 ∧
      (add_face cp x y z face s).colors.length = s.colors.length + 4 ∧
      (add_face cp x y z face s).uvs.length = s.uvs.length + 4 ∧
      (add_face cp x y z face s).uv2s.length = s.uv2s.length + 4) ∧
    ((_add_chunk cp x_size y_size z_size (MeshSink.empty A)).vertices.length =
        4 * visible_faces cp x_size y_size z_size ∧
      (_add_chunk cp x_size y_size z_size (MeshSink.empty A)).normals.length =
        4 * visible_faces cp x_size y_size z_size ∧
      (_add_chunk cp x_size y_size z_size (MeshSink.empty A)).colors.length =
        4 * visible_faces cp x_size y_size z_size ∧
      (_add_chunk cp x_size y_size z_size (MeshSink.empty A)).uvs.length =
        4 * visible_faces cp x_size y_size z_size ∧
      (_add_chunk cp x_size y_size z_size (MeshSink.empty A)).uv2s.length =
        4 * visible_faces cp x_size y_size z_size ∧
      (_add_chunk cp x_size y_size z_size (MeshSink.empty A)).indices =
        face_indices (visible_faces cp x_size y_size z_size) ∧
      (_add_chunk cp x_size y_size z_size (MeshSink.empty A)).indices.length =
        6 * visible_faces cp x_size y_size z_size ∧
      ∀ i ∈ (_add_chunk cp x_size y_size z_size (MeshSink.empty A)).indices,
        i < (_add_chunk cp x_size y_size z_size (MeshSink.empty A)).vertices.length) ∧
    (visible_faces solid_points 1 1 1 = 6 ∧
      (_add_chunk solid_points 1 1 1 (MeshSink.empty Nat)).vertices.length = 24 ∧
      (_add_chunk solid_points 1 1 1 (MeshSink.empty Nat)).indices.length = 36) := by
  have h0 : emitted (MeshSink.empty A) 0 := ⟨rfl, rfl, rfl, rfl, rfl, rfl⟩
  have h : emitted (_add_chunk cp x_size y_size z_size (MeshSink.empty A))
      (visible_faces cp x_size y_size z_size) := by
    have := emitted_y_loop cp x_size z_size y_size.toNat 0 (MeshSink.empty A) 0 h0
    rw [Nat.zero_add] at this
    exact this
  obtain ⟨h1, h2, h3, h4, h5, h6⟩ := h
  refine ⟨fun x y z face s => add_face_spec cp x y z face s,
    ⟨h1, h2, h3, h4, h5, h6, ?_, ?_⟩, by decide, by decide, by decide⟩
  · rw [h6, face_indices_length]
  · intro i hi
    rw [h6] at hi
    rw [h1]
    exact face_indices_lt _ i hi


/-! ## `add_light` -/

/-- C22 (amended), at a concrete state: `sample_lamp`, whose red light channel is
allocated. -/
theorem clear_lights_zero_witness :
    WF sample_lamp ∧
    ∃ b1, clear_lights stale_mem sample_lamp = Outcome.ok b1 ∧
      ∀ c, (c = CHANNEL_LIGHT_COLOR_R ∨ c = CHANNEL_LIGHT_COLOR_G ∨
          c = CHANNEL_LIGHT_COLOR_B) →
        ∀ x y z : Int,
          (validate_pos sample_lamp (x + (sample_lamp.margin_start + sample_lamp.margin_end))
              (y + (sample_lamp.margin_start + sample_lamp.margin_end))
              (z + (sample_lamp.margin_start + sample_lamp.margin_end)) = true ∨
            (chan sample_lamp c).data = none ∨ (chan sample_lamp c).defval = 0) →
          get_voxel b1 x y z c = Outcome.ok 0 :=
  ⟨by decide, clear_lights_zero stale_mem sample_lamp (by decide)⟩

/-! ## `create` followed by `is_uniform` -/

end Voxelman
